import Mathlib

/-!
Shallow embedding of the core pipeline of `src/script.js` (Product Manual
Assistant): geometric text reconstruction (`extractStructuredText`), the
compression adapter (`callScaleDown` and the per-page loop of
`extractKnowledge`), the categorization normalizer
(`parseJSONFromResponse`, `processStructuredKnowledge`) and the retrieval
context builder (intent detection and context assembly in `handleChat`).

JavaScript numbers are modelled as rationals (ℚ), strings as Lean strings
(lists of characters), thrown exceptions as `Except`/error flags, and the
two external HTTP services as explicit outcome parameters.
-/

namespace PMA

/-! ## JavaScript string primitives -/

/-- Whitespace class used by the `\s` regex class and `String.prototype.trim`
(ASCII part; the rare non-ASCII JS whitespace code points are not modelled,
no claim exercises them). -/
def jsIsSpace (c : Char) : Bool :=
  c = ' ' || c = '\t' || c = '\n' || c = '\r' || c = '\x0b' || c = '\x0c'

/-- Model of `String.prototype.trim`: drop whitespace from both ends. -/
def jsTrimL (l : List Char) : List Char :=
  ((l.dropWhile jsIsSpace).reverse.dropWhile jsIsSpace).reverse

/-- Model of `.replace(/\s+/g, " ")`: every maximal run of whitespace
characters becomes a single space. -/
def collapseWSL : List Char → List Char
  | [] => []
  | [c] => if jsIsSpace c then [' '] else [c]
  | c1 :: c2 :: rest =>
    if jsIsSpace c1 && jsIsSpace c2 then collapseWSL (c2 :: rest)
    else (if jsIsSpace c1 then ' ' else c1) :: collapseWSL (c2 :: rest)

/-- Model of `.replace(/\s+/g, " ").trim()` as used on knowledge texts. -/
def cleanTextL (l : List Char) : List Char := jsTrimL (collapseWSL l)

/-- Model of `String.prototype.toLowerCase` (ASCII case folding; the
queries and keywords involved are ASCII). -/
def jsToLowerL (l : List Char) : List Char := l.map Char.toLower

/-- Substring test over character lists. -/
def containsSeq (l sub : List Char) : Bool :=
  l.tails.any fun t => sub.isPrefixOf t

/-- Model of `String.prototype.includes`. -/
def jsIncludes (s sub : String) : Bool := containsSeq s.data sub.data

/-- Model of `Array.prototype.join` for lists of character lists. -/
def joinSepL (sep : List Char) : List (List Char) → List Char
  | [] => []
  | [x] => x
  | x :: y :: rest => x ++ sep ++ joinSepL sep (y :: rest)

/-! ## JSON values and `JSON.parse`

`parseJSONFromResponse` leans on the ECMAScript built-in `JSON.parse`;
the grammar below follows the JSON specification (strict: no trailing
commas, no single quotes, no raw control characters inside strings). -/

/-- A parsed JSON value.  Numbers are rationals; object fields keep the
textual order of the source. -/
inductive JVal where
  | null : JVal
  | bool (b : Bool) : JVal
  | num (q : ℚ) : JVal
  | str (s : String) : JVal
  | arr (elems : List JVal) : JVal
  | obj (fields : List (String × JVal)) : JVal

/-- JSON insignificant whitespace (per the JSON grammar). -/
def jsonWS (c : Char) : Bool := c = ' ' || c = '\t' || c = '\n' || c = '\r'

/-- Parse the body of a JSON string literal after the opening quote;
returns the decoded characters and the input after the closing quote.
Raw control characters (below U+0020, e.g. a bare newline) are a parse
error, which is exactly why the repair ladder escapes them.  A `\uXXXX`
escape denoting a surrogate half is approximated by the replacement of
`Char.ofNat` (no claim uses unicode escapes). -/
def parseStringBody : List Char → Option (List Char × List Char)
  | [] => none
  | '"' :: rest => some ([], rest)
  | '\\' :: '"' :: rest => (parseStringBody rest).map fun p => ('"' :: p.1, p.2)
  | '\\' :: '\\' :: rest => (parseStringBody rest).map fun p => ('\\' :: p.1, p.2)
  | '\\' :: '/' :: rest => (parseStringBody rest).map fun p => ('/' :: p.1, p.2)
  | '\\' :: 'b' :: rest => (parseStringBody rest).map fun p => ('\x08' :: p.1, p.2)
  | '\\' :: 'f' :: rest => (parseStringBody rest).map fun p => ('\x0c' :: p.1, p.2)
  | '\\' :: 'n' :: rest => (parseStringBody rest).map fun p => ('\n' :: p.1, p.2)
  | '\\' :: 'r' :: rest => (parseStringBody rest).map fun p => ('\r' :: p.1, p.2)
  | '\\' :: 't' :: rest => (parseStringBody rest).map fun p => ('\t' :: p.1, p.2)
  | '\\' :: 'u' :: h1 :: h2 :: h3 :: h4 :: rest =>
    let isHex (c : Char) : Bool :=
      c.isDigit || ('a' ≤ c && c ≤ 'f') || ('A' ≤ c && c ≤ 'F')
    if isHex h1 && isHex h2 && isHex h3 && isHex h4 then
      let hv (c : Char) : Nat :=
        if c.isDigit then c.toNat - 48 else if c.toNat < 97 then c.toNat - 55 else c.toNat - 87
      let code := ((hv h1 * 16 + hv h2) * 16 + hv h3) * 16 + hv h4
      (parseStringBody rest).map fun p => (Char.ofNat code :: p.1, p.2)
    else none
  | '\\' :: _ => none
  | c :: rest =>
    if c.toNat < 32 then none
    else (parseStringBody rest).map fun p => (c :: p.1, p.2)

/-- Numeric value of a list of decimal digits. -/
def digitsVal (ds : List Char) : Nat := ds.foldl (fun a c => a * 10 + (c.toNat - 48)) 0

/-- Parse a JSON number (sign, integer part without leading zeros,
optional fraction, optional exponent).  Integer inputs take a fast path
that performs no rational normalization. -/
def parseNumber (l : List Char) : Option (ℚ × List Char) :=
  let signAndRest : Bool × List Char := match l with
    | '-' :: r => (true, r)
    | _ => (false, l)
  let neg := signAndRest.1
  let l1 := signAndRest.2
  let intPart : Option (Nat × List Char) := match l1 with
    | '0' :: r => some (0, r)
    | c :: _ =>
      if '1' ≤ c && c ≤ '9' then
        some (digitsVal (l1.takeWhile Char.isDigit), l1.dropWhile Char.isDigit)
      else none
    | [] => none
  match intPart with
  | none => none
  | some (ip, r1) =>
    let fracPart : Option (Nat × Nat × List Char) := match r1 with
      | '.' :: r2 =>
        let fd := r2.takeWhile Char.isDigit
        if fd = [] then none else some (digitsVal fd, fd.length, r2.dropWhile Char.isDigit)
      | _ => some (0, 0, r1)
    match fracPart with
    | none => none
    | some (fp, flen, r2) =>
      let expPart : Option (Int × List Char) := match r2 with
        | 'e' :: r3 | 'E' :: r3 =>
          let signAndDigits : Bool × List Char := match r3 with
            | '+' :: r4 => (false, r4)
            | '-' :: r4 => (true, r4)
            | _ => (false, r3)
          let ed := signAndDigits.2.takeWhile Char.isDigit
          if ed = [] then none
          else
            let e : Int := Int.ofNat (digitsVal ed)
            some (if signAndDigits.1 then -e else e, signAndDigits.2.dropWhile Char.isDigit)
        | _ => some (0, r2)
      match expPart with
      | none => none
      | some (ex, r3) =>
        if flen = 0 && ex = 0 then
          some (if neg then -(ip : ℚ) else (ip : ℚ), r3)
        else
          let base : ℚ := (ip : ℚ) + (fp : ℚ) / ((10 : ℚ) ^ flen)
          let scaled : ℚ := if 0 ≤ ex then base * (10 : ℚ) ^ ex.toNat
            else base / (10 : ℚ) ^ (-ex).toNat
          some (if neg then -scaled else scaled, r3)

mutual

/-- Parse one JSON value (fuel-indexed recursive descent). -/
def parseVal : Nat → List Char → Option (JVal × List Char)
  | 0, _ => none
  | Nat.succ fuel, l =>
    match l.dropWhile jsonWS with
    | 'n' :: 'u' :: 'l' :: 'l' :: rest => some (JVal.null, rest)
    | 't' :: 'r' :: 'u' :: 'e' :: rest => some (JVal.bool true, rest)
    | 'f' :: 'a' :: 'l' :: 's' :: 'e' :: rest => some (JVal.bool false, rest)
    | '"' :: rest => (parseStringBody rest).map fun p => (JVal.str ⟨p.1⟩, p.2)
    | '[' :: rest =>
      match rest.dropWhile jsonWS with
      | ']' :: r => some (JVal.arr [], r)
      | _ => (parseElems fuel rest).map fun p => (JVal.arr p.1, p.2)
    | '\x7b' :: rest =>
      match rest.dropWhile jsonWS with
      | '\x7d' :: r => some (JVal.obj [], r)
      | _ => (parseMembers fuel rest).map fun p => (JVal.obj p.1, p.2)
    | rest => (parseNumber rest).map fun p => (JVal.num p.1, p.2)

/-- Parse the elements of a non-empty JSON array after `[`. -/
def parseElems : Nat → List Char → Option (List JVal × List Char)
  | 0, _ => none
  | Nat.succ fuel, l =>
    match parseVal fuel l with
    | none => none
    | some (v, rest) =>
      match rest.dropWhile jsonWS with
      | ',' :: r2 => (parseElems fuel r2).map fun p => (v :: p.1, p.2)
      | ']' :: r2 => some ([v], r2)
      | _ => none

/-- Parse the members of a non-empty JSON object after the opening brace. -/
def parseMembers : Nat → List Char → Option (List (String × JVal) × List Char)
  | 0, _ => none
  | Nat.succ fuel, l =>
    match l.dropWhile jsonWS with
    | '"' :: rest =>
      match parseStringBody rest with
      | none => none
      | some (key, r1) =>
        match r1.dropWhile jsonWS with
        | ':' :: r2 =>
          match parseVal fuel r2 with
          | none => none
          | some (v, r3) =>
            match r3.dropWhile jsonWS with
            | ',' :: r4 => (parseMembers fuel r4).map fun p => ((⟨key⟩, v) :: p.1, p.2)
            | '\x7d' :: r4 => some ([(⟨key⟩, v)], r4)
            | _ => none
        | _ => none
    | _ => none

end

/-- Model of `JSON.parse`: parse one value and require only whitespace to
remain.  Returns `none` where `JSON.parse` would throw a `SyntaxError`. -/
def jsonParse (l : List Char) : Option JVal :=
  match parseVal (2 * l.length + 4) l with
  | some (v, rest) => if rest.dropWhile jsonWS = [] then some v else none
  | none => none

/-! ## JSON stringification and JS string conversion

`processStructuredKnowledge` uses `JSON.stringify` on object-valued item
fields, and template literals / `Array.prototype.join` convert values to
strings elsewhere.  JS prints integral numbers without a decimal point;
the float formatting of non-integral numbers is approximated by a
`num/den` rendering (every number a claim exercises is an integer). -/

/-- Decimal rendering of a rational, exact for integers. -/
def q2s (q : ℚ) : List Char :=
  if q.den = 1 then (toString q.num).data
  else (toString q.num).data ++ ['/'] ++ (toString q.den).data

/-- String escaping of `JSON.stringify`. -/
def strEscape : List Char → List Char
  | [] => []
  | c :: rest =>
    if c = '"' then '\\' :: '"' :: strEscape rest
    else if c = '\\' then '\\' :: '\\' :: strEscape rest
    else if c = '\n' then '\\' :: 'n' :: strEscape rest
    else if c = '\r' then '\\' :: 'r' :: strEscape rest
    else if c = '\t' then '\\' :: 't' :: strEscape rest
    else if c = '\x08' then '\\' :: 'b' :: strEscape rest
    else if c = '\x0c' then '\\' :: 'f' :: strEscape rest
    else if c.toNat < 32 then
      let hx (n : Nat) : Char := if n < 10 then Char.ofNat (48 + n) else Char.ofNat (87 + n)
      '\\' :: 'u' :: '0' :: '0' :: hx (c.toNat / 16) :: hx (c.toNat % 16) :: strEscape rest
    else c :: strEscape rest

/-- Model of `JSON.stringify` (compact form, no spacing). -/
def stringifyJ : JVal → List Char
  | JVal.null => "null".data
  | JVal.bool true => "true".data
  | JVal.bool false => "false".data
  | JVal.num q => q2s q
  | JVal.str s => '"' :: strEscape s.data ++ ['"']
  | JVal.arr es => '[' :: joinSepL [','] (es.attach.map fun e => stringifyJ e.1) ++ [']']
  | JVal.obj fs =>
    '\x7b' :: joinSepL [','] (fs.attach.map fun kv =>
      '"' :: strEscape kv.1.1.data ++ ['"', ':'] ++ stringifyJ kv.1.2) ++ ['\x7d']
decreasing_by
  · have h := List.sizeOf_lt_of_mem e.2
    simp
    omega
  · have h := List.sizeOf_lt_of_mem kv.2
    have h2 : sizeOf kv.1.2 < sizeOf kv.1 := by cases kv.1; simp
    simp
    omega

/-- JS string conversion of a value (`String(v)` / template literals):
arrays render as `join(",")` in which `null` elements render empty,
objects as `[object Object]`. -/
def jsTemplate : JVal → List Char
  | JVal.null => "null".data
  | JVal.bool true => "true".data
  | JVal.bool false => "false".data
  | JVal.num q => q2s q
  | JVal.str s => s.data
  | JVal.obj _ => "[object Object]".data
  | JVal.arr es =>
    joinSepL [','] (es.attach.map fun e => match e with
      | ⟨JVal.null, _⟩ => []
      | ⟨x, _⟩ => jsTemplate x)
decreasing_by
  have h := List.sizeOf_lt_of_mem ‹x ∈ es›
  simp
  omega

/-- Model of `Array.prototype.join(sep)` on JSON element lists
(`null` elements contribute the empty string). -/
def jsJoin (sep : List Char) (es : List JVal) : List Char :=
  joinSepL sep (es.map fun e => match e with
    | JVal.null => []
    | x => jsTemplate x)

/-! ## parseJSONFromResponse (src/script.js lines 1772-1824) -/

/-- Front-fence stripping of `parseJSONFromResponse`: drop a leading
"```json" or "```". -/
def stripFrontFence (l : List Char) : List Char :=
  if List.isPrefixOf "```json".data l then l.drop 7
  else if List.isPrefixOf "```".data l then l.drop 3
  else l

/-- Back-fence stripping of `parseJSONFromResponse`: drop a trailing "```". -/
def stripBackFence (l : List Char) : List Char :=
  if List.isSuffixOf "```".data l then l.take (l.length - 3) else l

/-- Markdown fence stripping of `parseJSONFromResponse`: drop a leading
"```json" or "```", then a trailing "```". -/
def stripFencesL (l : List Char) : List Char := stripBackFence (stripFrontFence l)

/-- The cleaning stage of `parseJSONFromResponse`: trim, strip fences, trim. -/
def cleanRespL (l : List Char) : List Char := jsTrimL (stripFencesL (jsTrimL l))

/-- Model of `String.prototype.indexOf` for a single character. -/
def firstIdxOf (c : Char) : List Char → Option Nat
  | [] => none
  | x :: r => if x = c then some 0 else (firstIdxOf c r).map (· + 1)

/-- Model of `String.prototype.lastIndexOf` for a single character. -/
def lastIdxOf (c : Char) (l : List Char) : Option Nat :=
  (firstIdxOf c l.reverse).map fun i => l.length - 1 - i

/-- Helper for the lookbehind of the newline-repair regex: does the input
split as `mid ++ '"' :: tail` with `mid` free of newlines and `tail` free
of quotes? -/
def hasQuoteSplit : List Char → Bool
  | [] => false
  | c :: rest => (c = '"' && rest.all fun d => !(d = '"')) || (!(c = '\n') && hasQuoteSplit rest)

/-- The (variable-length) lookbehind `(?<=":.*"[^"]*)` of the newline
repair: some suffix of the prefix before the newline matches
`":` `[^\n]*` `"` `[^"]*`. -/
def lbOK (p : List Char) : Bool :=
  (List.range p.length).any fun j =>
    match p.drop j with
    | '"' :: ':' :: after => hasQuoteSplit after
    | _ => false

/-- Model of `.replace(/(?<=":.*"[^"]*)\n(?=[^"]*")/g, "\\n")`: each
newline whose original-string context satisfies the lookbehind and the
lookahead (`[^"]*"`, i.e. a later quote) becomes a backslash-n pair. -/
def fixNewlinesGo : List Char → List Char → List Char
  | _, [] => []
  | pre, c :: rest =>
    if c = '\n' && lbOK pre && (rest.any fun d => d = '"')
    then '\\' :: 'n' :: fixNewlinesGo (pre ++ [c]) rest
    else c :: fixNewlinesGo (pre ++ [c]) rest

/-- First textual repair of the ladder: escape bare newlines inside
string values. -/
def fixNewlines (l : List Char) : List Char := fixNewlinesGo [] l

/-- Second textual repair: `.replace(/,(\s*[}\]])/g, "$1")` drops every
comma followed by optional whitespace and a closing bracket. -/
def fixTrailingCommas : List Char → List Char
  | [] => []
  | c :: rest =>
    if c = ',' then
      match rest.dropWhile jsIsSpace with
      | '\x7d' :: _ => fixTrailingCommas rest
      | ']' :: _ => fixTrailingCommas rest
      | _ => ',' :: fixTrailingCommas rest
    else c :: fixTrailingCommas rest

/-- Third textual repair: `.replace(/'/g, '"')`. -/
def fixQuotes (l : List Char) : List Char :=
  l.map fun c => if c = '\x27' then '"' else c

/-- Model of `parseJSONFromResponse` (src/script.js lines 1772-1824):
trim and strip fences, try a direct parse, then extract the first-`{` to
last-`}` substring, then apply the three textual repairs; throwing is
modelled by `Except.error` carrying the thrown message. -/
def parseJSONFromResponse (response : String) : Except String JVal :=
  let cleaned := cleanRespL response.data
  match jsonParse cleaned with
  | some v => Except.ok v
  | none =>
    match firstIdxOf '\x7b' cleaned, lastIdxOf '\x7d' cleaned with
    | some fb, some lb =>
      if lb ≤ fb then Except.error "No valid JSON object found in response"
      else
        let jsonStr := (cleaned.drop fb).take (lb + 1 - fb)
        match jsonParse jsonStr with
        | some v => Except.ok v
        | none =>
          match jsonParse (fixQuotes (fixTrailingCommas (fixNewlines jsonStr))) with
          | some v => Except.ok v
          | none => Except.error "Could not parse JSON from response"
    | _, _ => Except.error "No valid JSON object found in response"

/-! ## Text Structurer: extractStructuredText (src/script.js lines 665-731) -/

/-- One PDF.js text item as consumed by `extractStructuredText`: its
string, the relevant entries of its transform (`transform[4]` = x
translation, `transform[5]` = y translation, `none` models a missing
transform) and its width (`none` models a missing width). -/
structure PdfItem where
  str : String
  transform : Option (ℚ × ℚ)
  width : Option ℚ
deriving DecidableEq

/-- A fragment placed in a row: `{ x, text, width: item.width || 0 }`. -/
structure RowItem where
  x : ℚ
  text : List Char
  width : ℚ
deriving DecidableEq

/-- A row under construction: the founding fragment's y and the fragments
pushed so far. -/
structure PdfRow where
  y : ℚ
  items : List RowItem
deriving DecidableEq

/-- The x coordinate: `item.transform ? item.transform[4] : 0`. -/
def itemX (it : PdfItem) : ℚ :=
  match it.transform with
  | some t => t.1
  | none => 0

/-- The y coordinate: `item.transform ? viewport.height - item.transform[5] : 0`. -/
def itemY (h : ℚ) (it : PdfItem) : ℚ :=
  match it.transform with
  | some t => h - t.2
  | none => 0

/-- The row entry pushed for a fragment. -/
def toRowItem (it : PdfItem) : RowItem :=
  ⟨itemX it, it.str.data, it.width.getD 0⟩

/-- Model of `rows.find(row => Math.abs(row.y - y) < rowTolerance)` plus
the push: the fragment joins the first row whose founding y is within
the tolerance 8, else a new row is appended at the end. -/
def insertIntoRows : List PdfRow → ℚ → RowItem → List PdfRow
  | [], y, ri => [⟨y, [ri]⟩]
  | r :: rs, y, ri =>
    if |r.y - y| < 8 then ⟨r.y, r.items ++ [ri]⟩ :: rs
    else r :: insertIntoRows rs y ri

/-- The row-building pass of `extractStructuredText`: fragments with an
empty string are skipped, the rest are clustered in input order. -/
def buildRows (h : ℚ) (items : List PdfItem) : List PdfRow :=
  items.foldl
    (fun rows it =>
      if it.str.data = [] then rows
      else insertIntoRows rows (itemY h it) (toRowItem it))
    []

/-- Comparator order of `row.items.sort((a, b) => a.x - b.x)`. -/
def rowItemLe (a b : RowItem) : Prop := a.x ≤ b.x

instance : DecidableRel rowItemLe := fun a b => inferInstanceAs (Decidable (a.x ≤ b.x))

instance : IsTotal RowItem rowItemLe := ⟨fun a b => le_total a.x b.x⟩

instance : IsTrans RowItem rowItemLe := ⟨fun _ _ _ h1 h2 => le_trans h1 h2⟩

/-- Comparator order of `rows.sort((a, b) => a.y - b.y)`. -/
def pdfRowLe (a b : PdfRow) : Prop := a.y ≤ b.y

instance : DecidableRel pdfRowLe := fun a b => inferInstanceAs (Decidable (a.y ≤ b.y))

instance : IsTotal PdfRow pdfRowLe := ⟨fun a b => le_total a.y b.y⟩

instance : IsTrans PdfRow pdfRowLe := ⟨fun _ _ _ h1 h2 => le_trans h1 h2⟩

/-- The in-row sort by x (a comparison sort; modelled as the stable
insertion sort). -/
def sortRowItems (l : List RowItem) : List RowItem := List.insertionSort rowItemLe l

/-- The joining pass over one sorted row, carrying `lastX` (initially -1)
and `lastWidth` (initially 0): a gap over 15 units inserts `" | "`, a gap
over 2 units a single space, otherwise nothing; afterwards `lastWidth`
becomes `item.width || item.text.length * 5`. -/
def lineGo : List RowItem → ℚ → ℚ → List Char
  | [], _, _ => []
  | it :: rest, lastX, lastWidth =>
    let sep : List Char :=
      if 0 ≤ lastX then
        let gap := it.x - (lastX + lastWidth)
        if 15 < gap then [' ', '|', ' ']
        else if 2 < gap then [' ']
        else []
      else []
    sep ++ it.text ++
      lineGo rest it.x (if it.width = 0 then (it.text.length : ℚ) * 5 else it.width)

/-- One output line: the joined row, trimmed (`lineItems.join("").trim()`). -/
def buildLine (items : List RowItem) : List Char := jsTrimL (lineGo items (-1) 0)

/-- Model of `extractStructuredText(items, viewport)` (only the viewport
height is consulted): cluster into rows, sort rows top-to-bottom, sort
each row left-to-right, join with gap-dependent separators, drop empty
lines, collapse whitespace, join with newlines. -/
def extractStructuredTextL (items : List PdfItem) (h : ℚ) : List Char :=
  let rows := List.insertionSort pdfRowLe (buildRows h items)
  let lines := rows.map fun r => buildLine (sortRowItems r.items)
  joinSepL ['\n'] ((lines.filter fun l => l ≠ []).map fun l => jsTrimL (collapseWSL l))

/-- String-valued wrapper of the Text Structurer. -/
def extractStructuredText (items : List PdfItem) (h : ℚ) : String :=
  ⟨extractStructuredTextL items h⟩

/-! ## Compression Adapter: callScaleDown (src/script.js lines 3060-3101)
and the per-page loop of extractKnowledge (lines 882-951) -/

/-- Outcome of one attempt to reach the ScaleDown service: a 2xx response
with a parsed JSON body, a 2xx response whose body fails `res.json()`, a
non-2xx status, or a network-level failure of `fetch`. -/
inductive SDOutcome where
  | ok (data : JVal) : SDOutcome
  | okBadJson : SDOutcome
  | httpError (status : Nat) : SDOutcome
  | networkError : SDOutcome

/-- Model of object member access `fields[k]`; duplicate keys (last one
wins in `JSON.parse`) are resolved by looking from the right. -/
def jvGet (fields : List (String × JVal)) (k : String) : Option JVal :=
  List.lookup k fields.reverse

/-- Extraction of `data.results?.compressed_prompt` with fallback to
`data.compressed_prompt`, keeping only truthy string payloads (a
non-string truthy payload in these fields is not modelled; no claim
depends on one). -/
def getCompressedPrompt (data : JVal) : Option String :=
  let pick (fs : List (String × JVal)) (k : String) : Option String :=
    match jvGet fs k with
    | some (JVal.str s) => if s = "" then none else some s
    | _ => none
  match data with
  | JVal.obj fs =>
    match jvGet fs "results" with
    | some (JVal.obj rs) =>
      match pick rs "compressed_prompt" with
      | some s => some s
      | none => pick fs "compressed_prompt"
    | _ => pick fs "compressed_prompt"
  | _ => none

/-- Model of `callScaleDown` together with whether the service was
contacted.  The function never throws: the `ScaleDown API Error` thrown
for a non-auth HTTP error is caught by the function's own catch block,
as is any `fetch`/`res.json()` rejection, all yielding the string
"ScaleDown Connection Failed". -/
def callScaleDown (apiKey : String) (outcome : SDOutcome) : String × Bool :=
  if apiKey = "" then ("Summarization unavailable", false)
  else
    match outcome with
    | SDOutcome.networkError => ("ScaleDown Connection Failed", true)
    | SDOutcome.okBadJson => ("ScaleDown Connection Failed", true)
    | SDOutcome.httpError s =>
      if s = 401 || s = 403 then ("Invalid ScaleDown Key", true)
      else ("ScaleDown Connection Failed", true)
    | SDOutcome.ok data =>
      match getCompressedPrompt data with
      | some s => (s, true)
      | none => ("No relevant summary found.", true)

/-- Transport/service errors of the adapter: network failure, a non-2xx
status other than 401/403, or a malformed JSON body. -/
def isTransportError : SDOutcome → Bool
  | SDOutcome.networkError => true
  | SDOutcome.okBadJson => true
  | SDOutcome.httpError s => !(s = 401 || s = 403)
  | SDOutcome.ok _ => false

/-- One input page of `extractKnowledge`. -/
structure Page where
  pageNum : Nat
  text : String
deriving DecidableEq

/-- One entry of the compressed batch. -/
structure CompressedPage where
  page : Nat
  text : String
deriving DecidableEq

/-- The acceptance check applied to a compression result:
`summary && summary.length > 10 && !summary.includes("unavailable") &&
!summary.includes("Invalid")`. -/
def acceptSummary (s : String) : Bool :=
  !(s = "") && decide (10 < s.length)
    && !(jsIncludes s "unavailable") && !(jsIncludes s "Invalid")

/-- The per-page compression loop of `extractKnowledge`: pages shorter
than 50 characters bypass the service (and are dropped when blank after
trimming); otherwise the adapter is consulted (`svc k` is the outcome of
the k-th actual service contact) and the summary is kept only when it
passes `acceptSummary`, else the original text is kept.  The returned
counter exposes how many service contacts happened.  The `try/catch`
around the call in the source is dead for compression failures since
`callScaleDown` traps its own errors. -/
def compressLoop (apiKey : String) (svc : Nat → SDOutcome) :
    List Page → Nat → List CompressedPage × Nat
  | [], k => ([], k)
  | p :: ps, k =>
    if p.text.length < 50 then
      let rest := compressLoop apiKey svc ps k
      (if 0 < (jsTrimL p.text.data).length then ⟨p.pageNum, p.text⟩ :: rest.1 else rest.1,
        rest.2)
    else
      let call := callScaleDown apiKey (svc k)
      let entry : CompressedPage :=
        if acceptSummary call.1 then ⟨p.pageNum, call.1⟩ else ⟨p.pageNum, p.text⟩
      let rest := compressLoop apiKey svc ps (if call.2 then k + 1 else k)
      (entry :: rest.1, rest.2)

/-! ## Categorization Normalizer: processStructuredKnowledge
(src/script.js lines 1063-1133) and the categorize step of
extractKnowledge (lines 1020-1061) -/

/-- A normalized knowledge item; `page` keeps the raw JSON value of the
item's `page` field (`0` when absent or falsy), `text` the cleaned text. -/
structure KnowledgeItem where
  page : JVal
  text : String

/-- The category keys, in the insertion order of the `CATEGORIES` object
(the iteration order of `Object.keys(CATEGORIES)`). -/
def catKeys : List String := ["safety", "parts", "warranty", "procedures", "errors", "video"]

/-- The stored `state.knowledgeBuckets` mapping, keys in insertion order. -/
abbrev Buckets := List (String × List KnowledgeItem)

/-- JS truthiness of a JSON value. -/
def jvTruthy : JVal → Bool
  | JVal.null => false
  | JVal.bool b => b
  | JVal.num q => !(q = 0)
  | JVal.str s => !(s = "")
  | JVal.arr _ => true
  | JVal.obj _ => true

/-- Model of the inner `isPlaceholderText` helper: re-clean the text and
reject empty, `none`/`n/a`/`na`/`-`, `no `/`none `/`please visit`
openings, and anything shorter than 3 characters. -/
def isPlaceholderText (t : List Char) : Bool :=
  if cleanTextL t = [] then true
  else if jsToLowerL (cleanTextL t) = "none".data ∨ jsToLowerL (cleanTextL t) = "n/a".data
      ∨ jsToLowerL (cleanTextL t) = "na".data ∨ jsToLowerL (cleanTextL t) = ['-'] then true
  else if List.isPrefixOf "no ".data (jsToLowerL (cleanTextL t))
      || List.isPrefixOf "none ".data (jsToLowerL (cleanTextL t))
      || List.isPrefixOf "please visit".data (jsToLowerL (cleanTextL t)) then true
  else if (cleanTextL t).length < 3 then true
  else false

/-- Model of `Object.entries(i)` for the values an item can take: objects
list their fields, arrays and strings their indexed elements, primitives
nothing. -/
def jvEntries : JVal → List (String × JVal)
  | JVal.obj fs => fs
  | JVal.arr es => es.enum.map fun p => (toString p.1, p.2)
  | JVal.str s => s.data.enum.map fun p => (toString p.1, JVal.str ⟨[p.2]⟩)
  | _ => []

/-- The text synthesized from all non-`page` fields when the item has no
string `text` field: string values as `"k: v"` (skipped when blank),
non-empty arrays joined with `", "`, objects via `JSON.stringify`
(whose `try` never fails on parsed-JSON values), other values skipped. -/
def synthText (entries : List (String × JVal)) : List Char :=
  joinSepL " | ".data (entries.filterMap fun kv =>
    if kv.1 = "page" then none
    else
      match kv.2 with
      | JVal.str s => if 0 < (jsTrimL s.data).length
          then some (kv.1.data ++ ": ".data ++ s.data) else none
      | JVal.arr es => if es.isEmpty then none
          else some (kv.1.data ++ ": ".data ++ jsJoin ", ".data es)
      | JVal.obj fs => some (kv.1.data ++ ": ".data ++ stringifyJ (JVal.obj fs))
      | _ => none)

/-- The page attributed to an item: `i.page || 0`. -/
def itemPage (i : JVal) : JVal :=
  match i with
  | JVal.obj fs =>
    match jvGet fs "page" with
    | some pv => if jvTruthy pv then pv else JVal.num 0
    | none => JVal.num 0
  | _ => JVal.num 0

/-- The raw text of an item: the string `text` field verbatim, else the
key-value join synthesized from its entries. -/
def itemRawText (i : JVal) : List Char :=
  match i with
  | JVal.obj fs =>
    match jvGet fs "text" with
    | some (JVal.str s) => s.data
    | _ => synthText (jvEntries i)
  | _ => synthText (jvEntries i)

/-- The non-throwing body of item normalization: derive the page and the
text, clean it, and drop placeholders. -/
def normalizeBody (i : JVal) : Option KnowledgeItem :=
  if isPlaceholderText (cleanTextL (itemRawText i)) then none
  else some ⟨itemPage i, ⟨cleanTextL (itemRawText i)⟩⟩

/-- Normalization of one raw item: a `null` item throws (the `i.page`
access raises a TypeError), a placeholder yields nothing, anything else
yields a `KnowledgeItem` with cleaned text. -/
def normalizeItem (i : JVal) : Except Unit (Option KnowledgeItem) :=
  match i with
  | JVal.null => Except.error ()
  | _ => Except.ok (normalizeBody i)

/-- Normalization of one category's item list, stopping at the first
throwing item (the `forEach` propagates the exception). -/
def normalizeItems : List JVal → Except Unit (List KnowledgeItem)
  | [] => Except.ok []
  | i :: rest =>
    match normalizeItem i with
    | Except.error e => Except.error e
    | Except.ok none => normalizeItems rest
    | Except.ok (some it) => (normalizeItems rest).map fun l => it :: l

/-- The raw value of `data[key]` (a member access on a non-object yields
`undefined`, modelled as `null`). -/
def categoryValue (data : JVal) (k : String) : JVal :=
  match data with
  | JVal.obj fs =>
    match jvGet fs k with
    | some x => x
    | none => JVal.null
  | _ => JVal.null

/-- The items of `data[key] || []` together with the raised-vs-returned
behavior of iterating them: a falsy or empty value is skipped, a truthy
non-array raises (`.forEach` is not a function). -/
def categoryItems (data : JVal) (k : String) : Except Unit (List KnowledgeItem) :=
  if jvTruthy (categoryValue data k) = false then Except.ok []
  else
    match categoryValue data k with
    | JVal.arr es => if es.isEmpty then Except.ok [] else normalizeItems es
    | _ => Except.error ()

/-- The category fold of `processStructuredKnowledge`, carrying the
buckets built so far; a throwing category stops the fold and leaves the
partial mapping in place.  A category with no surviving items is not
stored. -/
def goCats (data : JVal) : List String → Buckets → Buckets × Bool
  | [], acc => (acc, true)
  | k :: ks, acc =>
    match categoryItems data k with
    | Except.error _ => (acc, false)
    | Except.ok normalized =>
      goCats data ks (if normalized.isEmpty then acc else acc ++ [(k, normalized)])

/-- Model of `processStructuredKnowledge(data)` acting on the stored
buckets: the function first clears `state.knowledgeBuckets`, so the
prior mapping is discarded wholesale before the rebuild; the Bool
reports whether the rebuild ran to completion. -/
def processStructuredKnowledge (data : JVal) (_prior : Buckets) : Buckets × Bool :=
  goCats data catKeys []

/-- The categorize step of `extractKnowledge` after the compression loop:
when neither the JSON-mode call nor the fallback parse produced data,
`processStructuredKnowledge` is never reached and the stored buckets are
untouched (the surrounding catch only reports the error).  The
ensure-all-categories loop between parse and processing only writes `[]`
into missing keys, which `categoryItems` treats identically to absence. -/
def categorizeStep (resp : Except Unit JVal) (st : Buckets) : Buckets × Bool :=
  match resp with
  | Except.error _ => (st, false)
  | Except.ok data => processStructuredKnowledge data st

/-! ## Retrieval Context Builder: intent detection and context assembly
in handleChat (src/script.js lines 1589-1629) -/

/-- Keyword group of the `safety` intent regex. -/
def safetyKeywords : List String := ["safe", "warning", "danger", "hazard", "caution"]

/-- Keyword group of the `parts` intent regex. -/
def partsKeywords : List String := ["part", "spec", "dimension", "weight", "model", "cpu", "ram", "gpu"]

/-- Keyword group of the `warranty` intent regex. -/
def warrantyKeywords : List String := ["warranty", "coverage", "support", "contact", "claim"]

/-- Keyword group of the `errors` intent regex. -/
def errorsKeywords : List String := ["error", "code", "diagnostic", "troubleshoot", "problem", "fix"]

/-- Keyword group of the `video` intent regex. -/
def videoKeywords : List String := ["video", "tutorial", "link", "url", "guide"]

/-- Does the lower-cased query match a keyword group (the regexes are
plain alternations, so matching is substring containment)? -/
def matchesAny (lq : String) (kws : List String) : Bool :=
  kws.any fun k => jsIncludes lq k

/-- String-valued lower-casing. -/
def jsToLowerS (s : String) : String := ⟨jsToLowerL s.data⟩

/-- Intent detection of `handleChat`: the five keyword groups are tested
in order on the lower-cased query, the first match winning, with
`procedures` as the default. -/
def detectIntent (query : String) : String :=
  let lq := jsToLowerS query
  if matchesAny lq safetyKeywords then "safety"
  else if matchesAny lq partsKeywords then "parts"
  else if matchesAny lq warrantyKeywords then "warranty"
  else if matchesAny lq errorsKeywords then "errors"
  else if matchesAny lq videoKeywords then "video"
  else "procedures"

/-- Rendering of one knowledge item: `[Page ${i.page}] ${i.text}`. -/
def renderItem (it : KnowledgeItem) : List Char :=
  "[Page ".data ++ jsTemplate it.page ++ [']', ' '] ++ it.text.data

/-- Rendering of one raw page: `[Page ${p.pageNum}] ${p.text}`. -/
def renderPage (p : Page) : List Char :=
  "[Page ".data ++ (toString p.pageNum).data ++ [']', ' '] ++ p.text.data

/-- The context assembly of `handleChat`: the detected category's bucket
joined with "\n---\n"; if that is empty, all buckets' items flattened and
joined with newlines; if that is empty too and raw pages exist, the raw
pages rendered and truncated to 30000 characters. -/
def buildContext (category : String) (buckets : Buckets) (pdfPages : List Page) : String :=
  let c1 : List Char :=
    match List.lookup category buckets with
    | some items => joinSepL "\n---\n".data (items.map renderItem)
    | none => []
  if c1 ≠ [] then ⟨c1⟩
  else
    let c2 := joinSepL ['\n'] (((buckets.map Prod.snd).flatten).map renderItem)
    if c2 ≠ [] then ⟨c2⟩
    else if 0 < pdfPages.length then ⟨(joinSepL ['\n'] (pdfPages.map renderPage)).take 30000⟩
    else ⟨[]⟩

/-- Prior stored buckets used by the C3 counterexample. -/
def st0 : Buckets := [("video", [KnowledgeItem.mk (JVal.num 3) "watch the setup video"])]

/-- Categorizer response used by the C3 counterexample: the safety
category normalizes fine, then a `null` item in the parts category makes
normalization raise. -/
def dataBad : JVal := JVal.obj [
  ("safety", JVal.arr [JVal.obj [("page", JVal.num 2),
    ("text", JVal.str "Do not open the power unit")]]),
  ("parts", JVal.arr [JVal.null])]

/-- Buckets used by the C9 witness: no warranty bucket, one safety item. -/
def bW : Buckets := [("safety", [KnowledgeItem.mk (JVal.num 1) "Keep away from water"])]

/-- The no-adjacent-whitespace and only-plain-space invariant that a
collapsed string satisfies. -/
def wsNormal (l : List Char) : Prop :=
  l.Chain' (fun a b => ¬(jsIsSpace a = true ∧ jsIsSpace b = true))
  ∧ ∀ c ∈ l, jsIsSpace c = true → c = ' '

/-- Goodness of one stored knowledge item, as established by the
normalizer: it survived the placeholder filter and its text is a fixed
point of cleaning. -/
def goodItem (it : KnowledgeItem) : Prop :=
  isPlaceholderText it.text.data = false ∧ cleanTextL it.text.data = it.text.data

/-- Goodness of one stored bucket entry: a known category key, a
non-empty item list, every item good. -/
def goodEntry (kv : String × List KnowledgeItem) : Prop :=
  kv.1 ∈ catKeys ∧ kv.2 ≠ [] ∧ ∀ it ∈ kv.2, goodItem it

/-- Categorizer response used by the C7 witness. -/
def c7data : JVal := JVal.obj [("safety",
  JVal.arr [JVal.obj [("page", JVal.num 1), ("text", JVal.str "Keep dry")]])]

/-- The row entries that survive the empty-string skip, in input order. -/
def keptRowItems (l : List PdfItem) : List RowItem :=
  (l.filter fun it => it.str.data ≠ []).map toRowItem

/-! ## Theorems -/

/-- Claim C6: a page with text length below 50 never invokes the
compression service (the contact counter is untouched by it), and it
contributes exactly one batch entry carrying its text byte-for-byte
unchanged when the trimmed text is non-empty, and no entry otherwise;
the rest of the batch is unaffected. -/
theorem short_page_bypasses_compression (apiKey : String) (svc : Nat → SDOutcome)
    (p : Page) (ps : List Page) (k : Nat) (hshort : p.text.length < 50) :
    (compressLoop apiKey svc (p :: ps) k).1
      = (if 0 < (jsTrimL p.text.data).length then [CompressedPage.mk p.pageNum p.text] else [])
        ++ (compressLoop apiKey svc ps k).1
    ∧ (compressLoop apiKey svc (p :: ps) k).2 = (compressLoop apiKey svc ps k).2 := by
  constructor
  · simp only [compressLoop, if_pos hshort]
    by_cases ht : 0 < (jsTrimL p.text.data).length
    · simp [ht]
    · simp [ht]
  · simp only [compressLoop, if_pos hshort]

/-- Witness for C6 at the concrete page (2, "hi") with an empty key and a
failing service. -/
theorem short_page_bypasses_compression_witness :
    (compressLoop "" (fun _ => SDOutcome.networkError) [Page.mk 2 "hi"] 0).1
      = (if 0 < (jsTrimL ("hi" : String).data).length then [CompressedPage.mk 2 "hi"] else [])
        ++ (compressLoop "" (fun _ => SDOutcome.networkError) ([] : List Page) 0).1
    ∧ (compressLoop "" (fun _ => SDOutcome.networkError) [Page.mk 2 "hi"] 0).2
      = (compressLoop "" (fun _ => SDOutcome.networkError) ([] : List Page) 0).2 :=
  short_page_bypasses_compression "" (fun _ => SDOutcome.networkError)
    (Page.mk 2 "hi") [] 0 (by decide)

/-- Claim C10: with no ScaleDown key configured, `callScaleDown` returns
the sentinel "Summarization unavailable" without contacting the service;
that sentinel fails the acceptance check, so the whole compression loop
contacts the service zero times and acts as the identity on page texts
(dropping only short pages that are blank after trimming). -/
theorem missing_key_identity_compression (svc : Nat → SDOutcome) (pages : List Page) (k : Nat) :
    callScaleDown "" (svc k) = ("Summarization unavailable", false)
    ∧ acceptSummary "Summarization unavailable" = false
    ∧ (compressLoop "" svc pages k).2 = k
    ∧ (compressLoop "" svc pages k).1 = pages.filterMap fun p =>
        if p.text.length < 50 ∧ (jsTrimL p.text.data).length = 0 then none
        else some (CompressedPage.mk p.pageNum p.text) := by
  refine ⟨rfl, by decide, ?_, ?_⟩
  · induction pages generalizing k with
    | nil => rfl
    | cons p ps ih =>
      by_cases hl : p.text.length < 50
      · simp only [compressLoop, if_pos hl]
        exact ih k
      · simp only [compressLoop, if_neg hl, callScaleDown, if_pos rfl]
        exact ih k
  · induction pages generalizing k with
    | nil => rfl
    | cons p ps ih =>
      by_cases hl : p.text.length < 50
      · by_cases ht : 0 < (jsTrimL p.text.data).length
        · have ht' : ¬ (p.text.length < 50 ∧ (jsTrimL p.text.data).length = 0) := by omega
          simp only [compressLoop, if_pos hl, if_pos ht, List.filterMap_cons, if_neg ht']
          exact congrArg _ (ih k)
        · have ht' : p.text.length < 50 ∧ (jsTrimL p.text.data).length = 0 := by omega
          simp only [compressLoop, if_pos hl, if_neg ht, List.filterMap_cons, if_pos ht']
          exact ih k
      · have ht' : ¬ (p.text.length < 50 ∧ (jsTrimL p.text.data).length = 0) := by
          intro h; exact hl h.1
        simp only [compressLoop, if_neg hl, callScaleDown, if_pos rfl,
          List.filterMap_cons, if_neg ht']
        refine Eq.trans ?_ (congrArg _ (ih k))
        have : acceptSummary "Summarization unavailable" = false := by decide
        simp [this]

/-- Claim C1 (falsified): on a transport/service error the batch entry
for the page was claimed to carry the page's original uncompressed text;
in fact `callScaleDown` converts every such error into the string
"ScaleDown Connection Failed", which passes the acceptance filter (it
contains neither "unavailable" nor "Invalid" and is longer than 10), so
that sentinel — not the original text — is stored. -/
theorem compression_claimed_original_text_cex :
    (compressLoop "key" (fun _ => SDOutcome.networkError)
        [Page.mk 1 "aaaaaaaaaaaaaaaaaaaaaaaaaaaaaaaaaaaaaaaaaaaaaaaaaa"] 0).1
      = [CompressedPage.mk 1 "ScaleDown Connection Failed"]
    ∧ ("ScaleDown Connection Failed" : String)
        ≠ "aaaaaaaaaaaaaaaaaaaaaaaaaaaaaaaaaaaaaaaaaaaaaaaaaa" := by
  exact ⟨rfl, by decide⟩

/-- Claim C1 as amended: for every page of length at least 50, a
transport/service error (network failure, non-2xx status other than
401/403, or malformed JSON body) makes the batch entry for that page
carry the fixed sentinel "ScaleDown Connection Failed" (the documented
original-text fallback never triggers, since the adapter converts the
error into a string that passes the acceptance filter), and the batch
still completes: the remaining pages are processed exactly as before. -/
theorem compression_transport_error_stores_sentinel (apiKey : String) (svc : Nat → SDOutcome)
    (p : Page) (ps : List Page) (k : Nat) (hkey : apiKey ≠ "")
    (hlen : 50 ≤ p.text.length) (herr : isTransportError (svc k) = true) :
    (compressLoop apiKey svc (p :: ps) k).1
      = CompressedPage.mk p.pageNum "ScaleDown Connection Failed"
        :: (compressLoop apiKey svc ps (k + 1)).1
    ∧ (compressLoop apiKey svc (p :: ps) k).2 = (compressLoop apiKey svc ps (k + 1)).2 := by
  have hl : ¬ p.text.length < 50 := by omega
  have hcall : callScaleDown apiKey (svc k) = ("ScaleDown Connection Failed", true) := by
    cases h : svc k with
    | ok d => rw [h] at herr; simp [isTransportError] at herr
    | okBadJson => simp [callScaleDown, hkey]
    | networkError => simp [callScaleDown, hkey]
    | httpError s =>
      rw [h] at herr
      simp only [isTransportError, Bool.not_eq_eq_eq_not, Bool.not_true] at herr
      simp [callScaleDown, hkey, herr]
  have hacc : acceptSummary "ScaleDown Connection Failed" = true := by decide
  constructor
  · simp [compressLoop, if_neg hl, hcall, hacc]
  · simp [compressLoop, if_neg hl, hcall]

/-- Witness for the amended C1 at a malformed-JSON service outcome. -/
theorem compression_transport_error_witness :
    (compressLoop "key" (fun _ => SDOutcome.okBadJson)
        [Page.mk 4 "bbbbbbbbbbbbbbbbbbbbbbbbbbbbbbbbbbbbbbbbbbbbbbbbbb"] 0).1
      = CompressedPage.mk 4 "ScaleDown Connection Failed"
        :: (compressLoop "key" (fun _ => SDOutcome.okBadJson) ([] : List Page) 1).1
    ∧ (compressLoop "key" (fun _ => SDOutcome.okBadJson)
        [Page.mk 4 "bbbbbbbbbbbbbbbbbbbbbbbbbbbbbbbbbbbbbbbbbbbbbbbbbb"] 0).2
      = (compressLoop "key" (fun _ => SDOutcome.okBadJson) ([] : List Page) 1).2 :=
  compression_transport_error_stores_sentinel "key" (fun _ => SDOutcome.okBadJson)
    (Page.mk 4 "bbbbbbbbbbbbbbbbbbbbbbbbbbbbbbbbbbbbbbbbbbbbbbbbbb") [] 0
    (by decide) (by decide) (by decide)

/-- Claim C3 (falsified): when normalization of an item raises (here a
`null` item, on which the `i.page` access throws), the stored mapping is
not what it was before the categorize step: the step reports failure yet
leaves a partially rebuilt mapping (the categories completed before the
raising item) in place of the prior buckets. -/
theorem categorize_partial_state_cex :
    (categorizeStep (Except.ok dataBad) st0).2 = false
    ∧ (categorizeStep (Except.ok dataBad) st0).1.map Prod.fst = ["safety"]
    ∧ st0.map Prod.fst = ["video"]
    ∧ (categorizeStep (Except.ok dataBad) st0).1 ≠ st0 := by
  refine ⟨rfl, rfl, rfl, fun h => absurd (congrArg (List.map Prod.fst) h) ?_⟩
  decide

/-- Claim C3 as amended: if the JSON-mode call and the fallback parse
both fail, the stored mapping is exactly what it was before the
categorize step (the processing stage is never reached); once a response
parses, the prior mapping is discarded wholesale and the result is
rebuilt from the response alone — fully on success, but partially (the
categories completed before the raising item) when normalization of an
item raises. -/
theorem categorize_failure_state (st : Buckets) (data : JVal) :
    categorizeStep (Except.error ()) st = (st, false)
    ∧ (categorizeStep (Except.ok data) st).1 = (categorizeStep (Except.ok data) []).1 :=
  ⟨rfl, rfl⟩

/-- Claim C8: intent detection lower-cases the query and tests the five
keyword groups in the fixed order safety, parts, warranty, errors,
video, the first matching group winning, with `procedures` when none
matches; in particular "What's the warranty period?" selects `warranty`. -/
theorem detectIntent_priority (q : String) :
    (matchesAny (jsToLowerS q) safetyKeywords = true → detectIntent q = "safety")
    ∧ (matchesAny (jsToLowerS q) safetyKeywords = false →
        matchesAny (jsToLowerS q) partsKeywords = true → detectIntent q = "parts")
    ∧ (matchesAny (jsToLowerS q) safetyKeywords = false →
        matchesAny (jsToLowerS q) partsKeywords = false →
        matchesAny (jsToLowerS q) warrantyKeywords = true → detectIntent q = "warranty")
    ∧ (matchesAny (jsToLowerS q) safetyKeywords = false →
        matchesAny (jsToLowerS q) partsKeywords = false →
        matchesAny (jsToLowerS q) warrantyKeywords = false →
        matchesAny (jsToLowerS q) errorsKeywords = true → detectIntent q = "errors")
    ∧ (matchesAny (jsToLowerS q) safetyKeywords = false →
        matchesAny (jsToLowerS q) partsKeywords = false →
        matchesAny (jsToLowerS q) warrantyKeywords = false →
        matchesAny (jsToLowerS q) errorsKeywords = false →
        matchesAny (jsToLowerS q) videoKeywords = true → detectIntent q = "video")
    ∧ (matchesAny (jsToLowerS q) safetyKeywords = false →
        matchesAny (jsToLowerS q) partsKeywords = false →
        matchesAny (jsToLowerS q) warrantyKeywords = false →
        matchesAny (jsToLowerS q) errorsKeywords = false →
        matchesAny (jsToLowerS q) videoKeywords = false → detectIntent q = "procedures")
    ∧ detectIntent "What\x27s the warranty period?" = "warranty" := by
  refine ⟨?_, ?_, ?_, ?_, ?_, ?_, by decide⟩ <;>
    { intros; simp only [detectIntent]; simp [*] }

/-- Witness for C8 at a query matching the safety group. -/
theorem detectIntent_priority_witness : detectIntent "the danger zone" = "safety" :=
  (detectIntent_priority "the danger zone").1 (by decide)

/-- Characters survive `dropWhile` only if present in the input. -/
theorem mem_of_mem_dropWhileCh {p : Char → Bool} {x : Char} {l : List Char}
    (h : x ∈ l.dropWhile p) : x ∈ l :=
  (List.dropWhile_suffix p).sublist.subset h

/-- Characters of the trimmed string come from the input. -/
theorem mem_of_mem_jsTrimL {x : Char} {l : List Char} (h : x ∈ jsTrimL l) : x ∈ l := by
  unfold jsTrimL at h
  rw [List.mem_reverse] at h
  have h2 := mem_of_mem_dropWhileCh h
  rw [List.mem_reverse] at h2
  exact mem_of_mem_dropWhileCh h2

/-- Characters of the front-stripped string come from the input. -/
theorem mem_of_mem_stripFrontFence {x : Char} {l : List Char} (h : x ∈ stripFrontFence l) :
    x ∈ l := by
  unfold stripFrontFence at h
  split at h
  · exact List.drop_subset _ _ h
  · split at h
    · exact List.drop_subset _ _ h
    · exact h

/-- Characters of the back-stripped string come from the input. -/
theorem mem_of_mem_stripBackFence {x : Char} {l : List Char} (h : x ∈ stripBackFence l) :
    x ∈ l := by
  unfold stripBackFence at h
  split at h
  · exact List.take_subset _ _ h
  · exact h

/-- Characters of the fence-stripped string come from the input. -/
theorem mem_of_mem_stripFencesL {x : Char} {l : List Char} (h : x ∈ stripFencesL l) : x ∈ l :=
  mem_of_mem_stripFrontFence (mem_of_mem_stripBackFence h)

/-- Characters of the cleaned response come from the raw response. -/
theorem mem_of_mem_cleanRespL {x : Char} {l : List Char} (h : x ∈ cleanRespL l) : x ∈ l :=
  mem_of_mem_jsTrimL (mem_of_mem_stripFencesL (mem_of_mem_jsTrimL h))

/-- An absent character has no first index. -/
theorem firstIdxOf_eq_none {c : Char} {l : List Char} (h : c ∉ l) : firstIdxOf c l = none := by
  induction l with
  | nil => rfl
  | cons x r ih =>
    simp only [List.mem_cons, not_or] at h
    have hx : ¬ x = c := fun he => h.1 he.symm
    simp [firstIdxOf, hx, ih h.2]

/-- An absent character has no last index. -/
theorem lastIdxOf_eq_none {c : Char} {l : List Char} (h : c ∉ l) : lastIdxOf c l = none := by
  unfold lastIdxOf
  rw [firstIdxOf_eq_none (by simpa using h)]
  rfl

/-- Claim C4 (falsified): the input "42" contains neither `{` nor `}`,
yet `parseJSONFromResponse` does not throw: the direct `JSON.parse` of
the cleaned input succeeds and the number 42 is returned. -/
theorem parseJSONFromResponse_no_brace_cex :
    parseJSONFromResponse "42" = Except.ok (JVal.num 42)
    ∧ '\x7b' ∉ ("42" : String).data ∧ '\x7d' ∉ ("42" : String).data :=
  ⟨rfl, by decide, by decide⟩

/-- Claim C4 as amended: `parseJSONFromResponse` returns the object
mapping "a" to 1 both for the fenced input and for the trailing-comma
input; and for any input containing no `{` or no `}` it throws the
no-valid-JSON error unless the fence-stripped, trimmed input itself
parses as JSON (e.g. a bare number), in which case that value is
returned. -/
theorem parseJSONFromResponse_behavior :
    parseJSONFromResponse "```json\n\x7b\"a\":1\x7d\n```" = Except.ok (JVal.obj [("a", JVal.num 1)])
    ∧ parseJSONFromResponse "\x7b\"a\":1,\x7d" = Except.ok (JVal.obj [("a", JVal.num 1)])
    ∧ ∀ s : String, ('\x7b' ∉ s.data ∨ '\x7d' ∉ s.data) →
        jsonParse (cleanRespL s.data) = none →
        parseJSONFromResponse s = Except.error "No valid JSON object found in response" := by
  refine ⟨rfl, rfl, ?_⟩
  intro s hb hp
  simp only [parseJSONFromResponse]
  rw [hp]
  rcases hb with hb | hb
  · rw [firstIdxOf_eq_none fun hm => hb (mem_of_mem_cleanRespL hm)]
  · rw [lastIdxOf_eq_none fun hm => hb (mem_of_mem_cleanRespL hm)]
    rcases firstIdxOf '\x7b' (cleanRespL s.data) with _ | fb <;> rfl

/-- Witness for the amended C4 at the brace-free non-JSON input "abc". -/
theorem parseJSONFromResponse_behavior_witness :
    parseJSONFromResponse "abc" = Except.error "No valid JSON object found in response" :=
  parseJSONFromResponse_behavior.2.2 "abc" (Or.inl (by decide)) rfl

/-- Joining a list whose head is non-empty yields a non-empty string. -/
theorem joinSepL_cons_ne_nil (sep x : List Char) (xs : List (List Char)) (hx : x ≠ []) :
    joinSepL sep (x :: xs) ≠ [] := by
  cases xs with
  | nil => simpa [joinSepL] using hx
  | cons y ys => simp [joinSepL, hx]

/-- A rendered knowledge item always starts with a bracket. -/
theorem renderItem_ne_nil (it : KnowledgeItem) : renderItem it ≠ [] :=
  List.cons_ne_nil _ _

/-- Claim C9: the retrieval context is the first non-empty stage of the
fallback chain: (1) the detected category's bucket rendered and joined
with a separator line; (2) all buckets' items flattened in the same
rendering; (3) the raw pages rendered and truncated to 30000 characters
(empty when there are no pages either).  In particular, an absent or
empty category bucket with some other bucket non-empty yields the
flattened rendering, never the empty string. -/
theorem buildContext_fallback_chain (category : String) (buckets : Buckets)
    (pages : List Page) :
    (∀ items, List.lookup category buckets = some items → items ≠ [] →
        buildContext category buckets pages
          = String.mk (joinSepL "\n---\n".data (items.map renderItem)))
    ∧ ((List.lookup category buckets = none ∨ List.lookup category buckets = some []) →
        (buckets.map Prod.snd).flatten ≠ [] →
        buildContext category buckets pages
          = String.mk (joinSepL ['\n'] (((buckets.map Prod.snd).flatten).map renderItem))
        ∧ buildContext category buckets pages ≠ "")
    ∧ ((List.lookup category buckets = none ∨ List.lookup category buckets = some []) →
        (buckets.map Prod.snd).flatten = [] →
        buildContext category buckets pages
          = (if 0 < pages.length
              then String.mk ((joinSepL ['\n'] (pages.map renderPage)).take 30000)
              else "")
        ∧ (buildContext category buckets pages).length ≤ 30000) := by
  refine ⟨?_, ?_, ?_⟩
  · intro items hl hne
    rcases List.exists_cons_of_ne_nil hne with ⟨i, is, rfl⟩
    have hj := joinSepL_cons_ne_nil "\n---\n".data (renderItem i) (is.map renderItem)
      (renderItem_ne_nil i)
    simp only [buildContext, hl, List.map_cons]
    rw [if_pos (by simpa using hj)]
  · intro hl hflat
    rcases List.exists_cons_of_ne_nil hflat with ⟨f, fs, hf⟩
    have hj := joinSepL_cons_ne_nil ['\n'] (renderItem f) (fs.map renderItem)
      (renderItem_ne_nil f)
    have hc1 : (match List.lookup category buckets with
        | some items => joinSepL "\n---\n".data (items.map renderItem)
        | none => ([] : List Char)) = [] := by
      rcases hl with hl | hl <;> rw [hl] <;> rfl
    constructor
    · simp only [buildContext, hc1, hf, List.map_cons]
      rw [if_neg (by simp), if_pos (by simpa using hj)]
    · simp only [buildContext, hc1, hf, List.map_cons]
      rw [if_neg (by simp), if_pos (by simpa using hj)]
      simp only [ne_eq, String.ext_iff]
      simpa using hj
  · intro hl hflat
    have hc1 : (match List.lookup category buckets with
        | some items => joinSepL "\n---\n".data (items.map renderItem)
        | none => ([] : List Char)) = [] := by
      rcases hl with hl | hl <;> rw [hl] <;> rfl
    constructor
    · simp only [buildContext, hc1, hflat]
      rw [if_neg (by simp)]
      simp only [List.map_nil, joinSepL]
      rw [if_neg (by simp)]
    · simp only [buildContext, hc1, hflat]
      rw [if_neg (by simp)]
      simp only [List.map_nil, joinSepL]
      rw [if_neg (by simp)]
      by_cases hp : 0 < pages.length
      · rw [if_pos hp]
        show ((joinSepL ['\n'] (pages.map renderPage)).take 30000).length ≤ 30000
        rw [List.length_take]
        omega
      · rw [if_neg hp]
        exact Nat.zero_le _

/-- Witness for C9: warranty intent with no warranty bucket falls back
to the flattened rendering of all buckets. -/
theorem buildContext_fallback_witness :
    buildContext "warranty" bW [] = "[Page 1] Keep away from water"
    ∧ buildContext "warranty" bW [] ≠ "" := by
  have h := (buildContext_fallback_chain "warranty" bW []).2.1 (Or.inl rfl)
    (List.cons_ne_nil _ _)
  refine ⟨h.1.trans ?_, h.2⟩
  simp only [bW, List.map_cons, List.map_nil, List.flatten, renderItem, jsTemplate, q2s,
    joinSepL, List.append_nil]
  decide

/-! ## Whitespace-normalization lemmas -/

/-- A list starting with a non-whitespace character survives `dropWhile`. -/
theorem dropWhile_eq_self_of_head {l : List Char} (h : ∀ c, l.head? = some c → jsIsSpace c = false) :
    l.dropWhile jsIsSpace = l := by
  cases l with
  | nil => rfl
  | cons a t => rw [List.dropWhile_cons, if_neg (by simp [h a rfl])]

/-- Trimming is the identity on lists whose first and last characters are
not whitespace. -/
theorem jsTrimL_eq_self {l : List Char}
    (h1 : ∀ c, l.head? = some c → jsIsSpace c = false)
    (h2 : ∀ c, l.getLast? = some c → jsIsSpace c = false) :
    jsTrimL l = l := by
  unfold jsTrimL
  rw [dropWhile_eq_self_of_head h1]
  rw [dropWhile_eq_self_of_head (fun c hc => h2 c (by rwa [← List.head?_reverse]))]
  exact List.reverse_reverse l

/-- Collapsing a cons whose first character is not whitespace steps once. -/
theorem collapseWSL_cons_of_nonspace_first (a b : Char) (t : List Char)
    (ha : jsIsSpace a = false) :
    collapseWSL (a :: b :: t) = a :: collapseWSL (b :: t) := by
  simp [collapseWSL, ha]

/-- Collapsing distributes over a whitespace-free prefix. -/
theorem collapseWSL_nonspace_append {p : List Char} (r : List Char)
    (hp : ∀ c ∈ p, jsIsSpace c = false) :
    collapseWSL (p ++ r) = p ++ collapseWSL r := by
  induction p with
  | nil => rfl
  | cons a q ih =>
    have ha : jsIsSpace a = false := hp a (List.mem_cons_self a q)
    have hq : ∀ c ∈ q, jsIsSpace c = false := fun c hc => hp c (List.mem_cons_of_mem a hc)
    cases hqr : q ++ r with
    | nil =>
      rcases List.append_eq_nil.mp hqr with ⟨hq0, hr0⟩
      subst hq0; subst hr0
      simp [collapseWSL, ha]
    | cons b t =>
      show collapseWSL (a :: (q ++ r)) = a :: (q ++ collapseWSL r)
      rw [hqr, collapseWSL_cons_of_nonspace_first a b t ha, ← hqr, ih hq]

/-- Collapsing a cons whose second character is not whitespace steps once. -/
theorem collapseWSL_cons_cons {a b : Char} (t : List Char) (hb : jsIsSpace b = false) :
    collapseWSL (a :: b :: t) = (if jsIsSpace a then ' ' else a) :: collapseWSL (b :: t) := by
  simp [collapseWSL, hb]

/-- The head of a collapsed non-empty list headed by a non-space
character is that character. -/
theorem collapseWSL_head {c : Char} (t : List Char) (hc : jsIsSpace c = false) :
    (collapseWSL (c :: t)).head? = some c := by
  cases t with
  | nil => simp [collapseWSL, hc]
  | cons b t2 => rw [collapseWSL_cons_of_nonspace_first c b t2 hc]; rfl

/-- Collapsed output always satisfies the whitespace invariant. -/
theorem collapseWSL_wsNormal : ∀ l, wsNormal (collapseWSL l)
  | [] => ⟨List.chain'_nil, by simp [collapseWSL]⟩
  | [c] => by
    by_cases hc : jsIsSpace c = true
    · refine ⟨?_, ?_⟩ <;> simp [collapseWSL, hc]
    · refine ⟨?_, ?_⟩ <;> simp_all [collapseWSL, hc]
  | c1 :: c2 :: rest => by
    have ih := collapseWSL_wsNormal (c2 :: rest)
    by_cases h12 : (jsIsSpace c1 && jsIsSpace c2) = true
    · rw [show collapseWSL (c1 :: c2 :: rest) = collapseWSL (c2 :: rest) by
        simp [collapseWSL, h12]]
      exact ih
    · rw [show collapseWSL (c1 :: c2 :: rest)
          = (if jsIsSpace c1 then ' ' else c1) :: collapseWSL (c2 :: rest) by
        simp only [collapseWSL]; rw [if_neg (by simp_all)]]
      constructor
      · rw [List.chain'_cons']
        refine ⟨?_, ih.1⟩
        intro hd hhd
        by_cases hc1 : jsIsSpace c1 = true
        · have hc2 : jsIsSpace c2 = false := by
            cases h2 : jsIsSpace c2
            · rfl
            · exact absurd (by simp [hc1, h2]) h12
          rw [collapseWSL_head rest hc2] at hhd
          cases hhd
          simp [hc2]
        · simp only [if_neg hc1]
          intro hcon
          exact absurd hcon.1 (by simp [hc1])
      · intro c hc hsp
        rcases List.mem_cons.mp hc with hc | hc
        · subst hc
          by_cases hc1 : jsIsSpace c1 = true
          · simp [hc1]
          · rw [if_neg hc1] at hsp ⊢
            exact absurd hsp (by simp [hc1])
        · exact ih.2 c hc hsp

/-- The invariant is preserved by any suffix. -/
theorem wsNormal_suffix {l1 l2 : List Char} (h : List.IsSuffix l1 l2) (hn : wsNormal l2) :
    wsNormal l1 :=
  ⟨hn.1.suffix h, fun c hc hs => hn.2 c (h.sublist.subset hc) hs⟩

/-- The invariant is preserved by reversal. -/
theorem wsNormal_reverse {l : List Char} (hn : wsNormal l) : wsNormal l.reverse := by
  refine ⟨?_, fun c hc hs => hn.2 c (List.mem_reverse.mp hc) hs⟩
  rw [List.chain'_reverse]
  exact hn.1.imp fun {a b} hab => fun hcon => hab ⟨hcon.2, hcon.1⟩

/-- The invariant is preserved by trimming. -/
theorem wsNormal_jsTrimL {l : List Char} (hn : wsNormal l) : wsNormal (jsTrimL l) := by
  unfold jsTrimL
  exact wsNormal_reverse (wsNormal_suffix (List.dropWhile_suffix _)
    (wsNormal_reverse (wsNormal_suffix (List.dropWhile_suffix _) hn)))

/-- Collapsing is the identity on lists satisfying the invariant. -/
theorem collapseWSL_eq_self : ∀ {l}, wsNormal l → collapseWSL l = l
  | [], _ => rfl
  | [c], h => by
    by_cases hc : jsIsSpace c = true
    · have := h.2 c (List.mem_singleton_self c) hc
      simp [collapseWSL, hc, this]
    · simp [collapseWSL, hc]
  | c1 :: c2 :: rest, h => by
    have h12 : ¬(jsIsSpace c1 = true ∧ jsIsSpace c2 = true) :=
      (List.chain'_cons.mp h.1).1
    have htail : wsNormal (c2 :: rest) :=
      ⟨(List.chain'_cons.mp h.1).2, fun c hc hs => h.2 c (List.mem_cons_of_mem c1 hc) hs⟩
    have ih := collapseWSL_eq_self htail
    simp only [collapseWSL]
    rw [if_neg (by simpa using h12), ih]
    by_cases hc1 : jsIsSpace c1 = true
    · rw [if_pos hc1, h.2 c1 (List.mem_cons_self c1 _) hc1]
    · rw [if_neg hc1]

/-- The head of a `dropWhile` result never satisfies the predicate. -/
theorem head_dropWhile_false {p : Char → Bool} :
    ∀ {l : List Char} {c}, (l.dropWhile p).head? = some c → p c = false := by
  intro l
  induction l with
  | nil => intro c h; cases h
  | cons a t ih =>
    intro c h
    rw [List.dropWhile_cons] at h
    by_cases hp : p a = true
    · rw [if_pos hp] at h; exact ih h
    · rw [if_neg hp] at h
      cases h
      cases hpa : p a
      · rfl
      · exact absurd hpa hp

/-- The last element of a non-empty suffix is the last of the whole. -/
theorem getLast?_isSuffix {l1 l2 : List Char} (h : List.IsSuffix l1 l2) (hne : l1 ≠ []) :
    l1.getLast? = l2.getLast? := by
  rcases h with ⟨t, rfl⟩
  rw [List.getLast?_append]
  rcases hl : l1.getLast? with _ | x
  · exact absurd (List.getLast?_eq_none_iff.mp hl) hne
  · rfl

/-- Trimming is idempotent. -/
theorem jsTrimL_idem (l : List Char) : jsTrimL (jsTrimL l) = jsTrimL l := by
  have hBhead : ∀ c, ((l.dropWhile jsIsSpace).reverse.dropWhile jsIsSpace).head? = some c →
      jsIsSpace c = false := fun c hc => head_dropWhile_false hc
  have hBlast : ∀ c, ((l.dropWhile jsIsSpace).reverse.dropWhile jsIsSpace).getLast? = some c →
      jsIsSpace c = false := by
    intro c hc
    have hBne : (l.dropWhile jsIsSpace).reverse.dropWhile jsIsSpace ≠ [] := by
      intro h0; rw [h0] at hc; cases hc
    rw [getLast?_isSuffix (List.dropWhile_suffix _) hBne, List.getLast?_reverse] at hc
    exact head_dropWhile_false hc
  show jsTrimL ((l.dropWhile jsIsSpace).reverse.dropWhile jsIsSpace).reverse = jsTrimL l
  apply Eq.trans (jsTrimL_eq_self ?_ ?_)
  · rfl
  · intro c hc; rw [List.head?_reverse] at hc; exact hBlast c hc
  · intro c hc; rw [List.getLast?_reverse] at hc; exact hBhead c hc

/-- Cleaning (collapse then trim) is idempotent. -/
theorem cleanTextL_idem (l : List Char) : cleanTextL (cleanTextL l) = cleanTextL l := by
  unfold cleanTextL
  rw [collapseWSL_eq_self (wsNormal_jsTrimL (collapseWSL_wsNormal l))]
  exact jsTrimL_idem (collapseWSL l)

/-! ## Categorization normalizer invariants (claim C7) -/


/-- A normalized item always satisfies `goodItem`. -/
theorem normalizeBody_sound {i : JVal} {it : KnowledgeItem}
    (h : normalizeBody i = some it) : goodItem it := by
  by_cases hpl : isPlaceholderText (cleanTextL (itemRawText i)) = true
  · rw [normalizeBody, if_pos hpl] at h
    cases h
  · rw [normalizeBody, if_neg hpl] at h
    cases h
    exact ⟨by simpa using hpl, cleanTextL_idem _⟩

/-- A successfully normalized non-null item satisfies `goodItem`. -/
theorem normalizeItem_sound {i : JVal} {it : KnowledgeItem}
    (h : normalizeItem i = Except.ok (some it)) : goodItem it := by
  cases i <;> simp only [normalizeItem] at h
  case null => cases h
  all_goals exact normalizeBody_sound (by injection h)

/-- Every item surviving list normalization satisfies `goodItem`. -/
theorem normalizeItems_sound :
    ∀ {l : List JVal} {res : List KnowledgeItem}, normalizeItems l = Except.ok res →
      ∀ it ∈ res, goodItem it := by
  intro l
  induction l with
  | nil =>
    intro res h it hit
    cases h
    cases hit
  | cons i rest ih =>
    intro res h it hit
    rw [normalizeItems] at h
    rcases hni : normalizeItem i with e | v
    · rw [hni] at h; cases h
    · rw [hni] at h
      rcases v with _ | it0
      · exact ih h it hit
      · rcases hrest : normalizeItems rest with e | res0
        · rw [hrest] at h; cases h
        · rw [hrest] at h
          cases h
          rcases List.mem_cons.mp hit with hit | hit
          · subst hit; exact normalizeItem_sound hni
          · exact ih hrest it hit

/-- Every item a category contributes satisfies `goodItem`. -/
theorem categoryItems_sound {data : JVal} {k : String} {res : List KnowledgeItem}
    (h : categoryItems data k = Except.ok res) : ∀ it ∈ res, goodItem it := by
  by_cases ht : jvTruthy (categoryValue data k) = false
  · rw [categoryItems, if_pos ht] at h
    cases h
    intro it hit
    cases hit
  · rw [categoryItems, if_neg ht] at h
    split at h
    · rename_i es heq
      by_cases he : es.isEmpty
      · rw [if_pos he] at h
        cases h
        intro it hit
        cases hit
      · rw [if_neg he] at h
        exact normalizeItems_sound h
    · cases h

/-- The category fold only ever stores good entries. -/
theorem goCats_sound (data : JVal) :
    ∀ (ks : List String) (acc : Buckets), (∀ e ∈ ks, e ∈ catKeys) →
      (∀ kv ∈ acc, goodEntry kv) → ∀ kv ∈ (goCats data ks acc).1, goodEntry kv := by
  intro ks
  induction ks with
  | nil => intro acc _ hacc kv hkv; exact hacc kv hkv
  | cons k ks ih =>
    intro acc hks hacc kv hkv
    rcases hci : categoryItems data k with e | normalized
    · simp only [goCats, hci] at hkv
      exact hacc kv hkv
    · simp only [goCats, hci] at hkv
      by_cases hne : normalized.isEmpty
      · rw [if_pos hne] at hkv
        exact ih _ (fun e he => hks e (List.mem_cons_of_mem k he)) hacc kv hkv
      · rw [if_neg hne] at hkv
        refine ih _ (fun e he => hks e (List.mem_cons_of_mem k he)) ?_ kv hkv
        intro kv2 hkv2
        rcases List.mem_append.mp hkv2 with h2 | h2
        · exact hacc kv2 h2
        · rcases List.mem_singleton.mp h2 with rfl
          refine ⟨hks k (List.mem_cons_self k ks), ?_, categoryItems_sound hci⟩
          intro h0
          have h0x : normalized = [] := h0
          rw [h0x] at hne
          exact hne rfl

/-- Unfolding of the placeholder filter on a clean-fixed-point text:
all the individual claim C7 properties. -/
theorem placeholder_props {t : List Char} (hpl : isPlaceholderText t = false)
    (hid : cleanTextL t = t) :
    t ≠ []
    ∧ jsToLowerL t ≠ "none".data ∧ jsToLowerL t ≠ "n/a".data
    ∧ jsToLowerL t ≠ "na".data ∧ jsToLowerL t ≠ ['-']
    ∧ List.isPrefixOf "no ".data (jsToLowerL t) = false
    ∧ List.isPrefixOf "none ".data (jsToLowerL t) = false
    ∧ List.isPrefixOf "please visit".data (jsToLowerL t) = false
    ∧ 3 ≤ t.length := by
  unfold isPlaceholderText at hpl
  rw [hid] at hpl
  split_ifs at hpl with h1 h2 h3 h4
  rw [not_or, not_or, not_or] at h2
  simp only [Bool.or_eq_true, not_or, Bool.not_eq_true] at h3
  push_neg at h4
  exact ⟨h1, h2.1, h2.2.1, h2.2.2.1, h2.2.2.2, h3.1.1, h3.1.2, h3.2, h4⟩

/-- Claim C7: every mapping `processStructuredKnowledge` stores (even a
partial one left by a raising item) contains only known category keys
with non-empty item lists, and every stored item's text is non-empty,
not a placeholder (none, n:a, na, dash), does not start with "no ", "none " or
"please visit" (case-insensitively), is a fixed point of
whitespace-collapsing and trimming, and has length at least 3; the two
normalization examples of the claim compute as stated. -/
theorem processStructuredKnowledge_invariant (data : JVal) (st : Buckets) :
    (∀ k items, (k, items) ∈ (processStructuredKnowledge data st).1 →
      k ∈ catKeys ∧ items ≠ [] ∧ ∀ it ∈ items,
        it.text.data ≠ []
        ∧ jsToLowerL it.text.data ≠ "none".data
        ∧ jsToLowerL it.text.data ≠ "n/a".data
        ∧ jsToLowerL it.text.data ≠ "na".data
        ∧ jsToLowerL it.text.data ≠ ['-']
        ∧ List.isPrefixOf "no ".data (jsToLowerL it.text.data) = false
        ∧ List.isPrefixOf "none ".data (jsToLowerL it.text.data) = false
        ∧ List.isPrefixOf "please visit".data (jsToLowerL it.text.data) = false
        ∧ cleanTextL it.text.data = it.text.data
        ∧ 3 ≤ it.text.data.length)
    ∧ normalizeItems [JVal.obj [("page", JVal.num 1), ("text", JVal.str "N/A")]] = Except.ok []
    ∧ normalizeItems [JVal.obj [("page", JVal.num 1), ("text", JVal.str "  ok value  ")]]
        = Except.ok [KnowledgeItem.mk (JVal.num 1) "ok value"] := by
  refine ⟨?_, rfl, rfl⟩
  intro k items hmem
  have hg := goCats_sound data catKeys [] (fun e he => he)
    (fun kv h => absurd h (List.not_mem_nil kv)) (k, items) hmem
  obtain ⟨hk, hne, hall⟩ := hg
  refine ⟨hk, hne, fun it hit => ?_⟩
  obtain ⟨hpl, hid⟩ := hall it hit
  obtain ⟨p1, p2, p3, p4, p5, p6, p7, p8, p9⟩ := placeholder_props hpl hid
  exact ⟨p1, p2, p3, p4, p5, p6, p7, p8, hid, p9⟩

/-- Witness for C7 at a concrete one-item safety response. -/
theorem processStructuredKnowledge_invariant_witness :
    "safety" ∈ catKeys
    ∧ ([KnowledgeItem.mk (JVal.num 1) "Keep dry"] : List KnowledgeItem) ≠ []
    ∧ (KnowledgeItem.mk (JVal.num 1) "Keep dry").text.data ≠ [] := by
  have h := (processStructuredKnowledge_invariant c7data []).1 "safety"
    [KnowledgeItem.mk (JVal.num 1) "Keep dry"]
    (List.mem_singleton.mpr rfl)
  exact ⟨h.1, h.2.1, (h.2.2 _ (List.mem_singleton.mpr rfl)).1⟩

/-! ## Text Structurer separator thresholds (claim C5) -/


/-- Trimming is the identity on a separator-joined pair of non-empty
whitespace-free texts. -/
theorem trim_join_piece {t1 t2 : List Char} (sep : List Char)
    (hns1 : ∀ c ∈ t1, jsIsSpace c = false) (hns2 : ∀ c ∈ t2, jsIsSpace c = false)
    (ht1 : t1 ≠ []) (ht2 : t2 ≠ []) :
    jsTrimL (t1 ++ sep ++ t2) = t1 ++ sep ++ t2 := by
  rcases List.exists_cons_of_ne_nil ht1 with ⟨c1, r1, rfl⟩
  apply jsTrimL_eq_self
  · intro c hc
    have hc1 : some c1 = some c := hc
    cases hc1
    exact hns1 c1 (List.mem_cons_self c1 r1)
  · intro c hc
    rw [List.getLast?_append, List.getLast?_eq_getLast _ ht2] at hc
    have hc2 : some (t2.getLast ht2) = some c := hc
    cases hc2
    exact hns2 _ (List.getLast_mem ht2)

/-- Collapsing is the identity on a separator-joined pair of
whitespace-free texts, for each of the three separators the joiner can
emit. -/
theorem collapse_join_piece {t1 t2 : List Char} (sep : List Char)
    (hns1 : ∀ c ∈ t1, jsIsSpace c = false) (hns2 : ∀ c ∈ t2, jsIsSpace c = false)
    (ht2 : t2 ≠ [])
    (hsep : sep = [] ∨ sep = [' '] ∨ sep = [' ', '|', ' ']) :
    collapseWSL (t1 ++ sep ++ t2) = t1 ++ sep ++ t2 := by
  have ht2c : collapseWSL t2 = t2 := by
    have h0 := collapseWSL_nonspace_append (p := t2) [] hns2
    simpa [collapseWSL] using h0
  rcases List.exists_cons_of_ne_nil ht2 with ⟨c2, r2, rfl⟩
  have hc2 : jsIsSpace c2 = false := hns2 c2 (List.mem_cons_self c2 r2)
  have hS : collapseWSL (sep ++ (c2 :: r2)) = sep ++ (c2 :: r2) := by
    rcases hsep with rfl | rfl | rfl
    · simpa using ht2c
    · show collapseWSL (' ' :: c2 :: r2) = ' ' :: c2 :: r2
      rw [collapseWSL_cons_cons r2 hc2, ht2c]
      simp [jsIsSpace]
    · show collapseWSL (' ' :: '|' :: ' ' :: c2 :: r2) = ' ' :: '|' :: ' ' :: c2 :: r2
      rw [show (' ' :: '|' :: ' ' :: c2 :: r2) = ' ' :: '|' :: (' ' :: c2 :: r2) from rfl]
      rw [collapseWSL_cons_cons (' ' :: c2 :: r2) (by simp [jsIsSpace])]
      rw [collapseWSL_cons_of_nonspace_first '|' ' ' (c2 :: r2) (by simp [jsIsSpace])]
      rw [collapseWSL_cons_cons r2 hc2, ht2c]
      simp [jsIsSpace]
  calc collapseWSL (t1 ++ sep ++ (c2 :: r2))
      = collapseWSL (t1 ++ (sep ++ (c2 :: r2))) := by rw [List.append_assoc]
    _ = t1 ++ (sep ++ (c2 :: r2)) := by rw [collapseWSL_nonspace_append _ hns1, hS]
    _ = t1 ++ sep ++ (c2 :: r2) := (List.append_assoc t1 sep (c2 :: r2)).symm

/-- Core of claim C5: for two same-row fragments (equal translateY,
non-negative x1 below x2, non-zero first width, whitespace-free
non-empty texts), the structurer emits exactly the gap-dependent
separator between the two texts, where the gap is x2 - (x1 + w1). -/
theorem gap_separator_core (t1 t2 : String) (x1 x2 w1 w2 ty h : ℚ)
    (ht1 : t1.data ≠ []) (ht2 : t2.data ≠ [])
    (hns1 : ∀ c ∈ t1.data, jsIsSpace c = false) (hns2 : ∀ c ∈ t2.data, jsIsSpace c = false)
    (hx0 : 0 ≤ x1) (hx : x1 < x2) (hw : w1 ≠ 0) :
    extractStructuredText
        [PdfItem.mk t1 (some (x1, ty)) (some w1), PdfItem.mk t2 (some (x2, ty)) (some w2)] h
      = String.mk (t1.data
          ++ (if 15 < x2 - (x1 + w1) then [' ', '|', ' ']
              else if 2 < x2 - (x1 + w1) then [' '] else [])
          ++ t2.data) := by
  set sep : List Char := (if 15 < x2 - (x1 + w1) then [' ', '|', ' ']
      else if 2 < x2 - (x1 + w1) then [' '] else []) with hsepeq
  have hsep3 : sep = [] ∨ sep = [' '] ∨ sep = [' ', '|', ' '] := by
    rw [hsepeq]
    split_ifs <;> simp
  have hrows : buildRows h
      [PdfItem.mk t1 (some (x1, ty)) (some w1), PdfItem.mk t2 (some (x2, ty)) (some w2)]
      = [PdfRow.mk (h - ty) [RowItem.mk x1 t1.data w1, RowItem.mk x2 t2.data w2]] := by
    unfold buildRows
    simp only [List.foldl]
    rw [if_neg ht1, if_neg ht2]
    show insertIntoRows (insertIntoRows [] _ _) _ _ = _
    rw [show insertIntoRows [] (itemY h (PdfItem.mk t1 (some (x1, ty)) (some w1)))
        (toRowItem (PdfItem.mk t1 (some (x1, ty)) (some w1)))
        = [PdfRow.mk (h - ty) [RowItem.mk x1 t1.data w1]] from rfl]
    unfold insertIntoRows
    rw [if_pos]
    · rfl
    · show |(h - ty) - itemY h (PdfItem.mk t2 (some (x2, ty)) (some w2))| < 8
      rw [show itemY h (PdfItem.mk t2 (some (x2, ty)) (some w2)) = h - ty from rfl]
      rw [sub_self, abs_zero]
      norm_num
  have hsort : sortRowItems [RowItem.mk x1 t1.data w1, RowItem.mk x2 t2.data w2]
      = [RowItem.mk x1 t1.data w1, RowItem.mk x2 t2.data w2] := by
    simp only [sortRowItems, List.insertionSort, List.orderedInsert]
    rw [if_pos (show rowItemLe (RowItem.mk x1 t1.data w1) (RowItem.mk x2 t2.data w2)
      from le_of_lt hx)]
  have hline : lineGo [RowItem.mk x1 t1.data w1, RowItem.mk x2 t2.data w2] (-1) 0
      = t1.data ++ sep ++ t2.data := by
    simp only [lineGo]
    rw [if_neg (show ¬ (0 : ℚ) ≤ -1 by norm_num), if_pos hx0]
    rw [if_neg (show ¬ w1 = 0 from hw)]
    rw [hsepeq]
    simp [List.append_assoc]
  have htrim : jsTrimL (t1.data ++ sep ++ t2.data) = t1.data ++ sep ++ t2.data :=
    trim_join_piece sep hns1 hns2 ht1 ht2
  have hcoll : collapseWSL (t1.data ++ sep ++ t2.data) = t1.data ++ sep ++ t2.data :=
    collapse_join_piece sep hns1 hns2 ht2 hsep3
  have hne : t1.data ++ sep ++ t2.data ≠ [] := by
    intro h0
    rcases List.append_eq_nil.mp h0 with ⟨h1, _⟩
    rcases List.append_eq_nil.mp h1 with ⟨h2, _⟩
    exact ht1 h2
  unfold extractStructuredText extractStructuredTextL
  rw [hrows]
  rw [show List.insertionSort pdfRowLe
      [PdfRow.mk (h - ty) [RowItem.mk x1 t1.data w1, RowItem.mk x2 t2.data w2]]
      = [PdfRow.mk (h - ty) [RowItem.mk x1 t1.data w1, RowItem.mk x2 t2.data w2]] from rfl]
  simp only [List.map_cons, List.map_nil]
  rw [show buildLine (sortRowItems [RowItem.mk x1 t1.data w1, RowItem.mk x2 t2.data w2])
      = jsTrimL (lineGo [RowItem.mk x1 t1.data w1, RowItem.mk x2 t2.data w2] (-1) 0)
      from by rw [hsort]; rfl]
  rw [hline, htrim]
  have hfilter : (([t1.data ++ sep ++ t2.data] : List (List Char)).filter fun l => l ≠ [])
      = [t1.data ++ sep ++ t2.data] := by
    rw [List.filter_singleton]
    rw [decide_eq_true hne]
    rfl
  rw [hfilter]
  simp only [List.map_cons, List.map_nil]
  rw [hcoll, htrim]
  rfl

/-- Claim C5: between two adjacent same-row fragments the structurer
inserts no separator when the gap is at most 2 units, a single space
when it is over 2 and at most 15, and " | " when it is over 15, with
the gap measured as next.x minus (previous.x plus previous width); in
particular gap 16 yields " | ", gap 10 a single space and gap 0 no
separator. -/
theorem gap_separator_thresholds :
    (∀ (t1 t2 : String) (x1 x2 w1 w2 ty h : ℚ),
      t1.data ≠ [] → t2.data ≠ [] →
      (∀ c ∈ t1.data, jsIsSpace c = false) → (∀ c ∈ t2.data, jsIsSpace c = false) →
      0 ≤ x1 → x1 < x2 → w1 ≠ 0 →
      extractStructuredText
          [PdfItem.mk t1 (some (x1, ty)) (some w1), PdfItem.mk t2 (some (x2, ty)) (some w2)] h
        = String.mk (t1.data
            ++ (if 15 < x2 - (x1 + w1) then [' ', '|', ' ']
                else if 2 < x2 - (x1 + w1) then [' '] else [])
            ++ t2.data))
    ∧ extractStructuredText
        [PdfItem.mk "A" (some (0, 50)) (some 4), PdfItem.mk "B" (some (20, 50)) (some 6)] 100
      = "A | B"
    ∧ extractStructuredText
        [PdfItem.mk "A" (some (0, 50)) (some 4), PdfItem.mk "B" (some (14, 50)) (some 6)] 100
      = "A B"
    ∧ extractStructuredText
        [PdfItem.mk "A" (some (0, 50)) (some 4), PdfItem.mk "B" (some (4, 50)) (some 6)] 100
      = "AB" := by
  refine ⟨fun t1 t2 x1 x2 w1 w2 ty h h1 h2 h3 h4 h5 h6 h7 =>
    gap_separator_core t1 t2 x1 x2 w1 w2 ty h h1 h2 h3 h4 h5 h6 h7, ?_, ?_, ?_⟩
  · have hc := gap_separator_core "A" "B" 0 20 4 6 50 100 (by decide) (by decide)
      (by decide) (by decide) (by norm_num) (by norm_num) (by norm_num)
    rw [if_pos (show (15:ℚ) < 20 - (0 + 4) by norm_num)] at hc
    exact hc.trans (by decide)
  · have hc := gap_separator_core "A" "B" 0 14 4 6 50 100 (by decide) (by decide)
      (by decide) (by decide) (by norm_num) (by norm_num) (by norm_num)
    rw [if_neg (show ¬ (15:ℚ) < 14 - (0 + 4) by norm_num),
      if_pos (show (2:ℚ) < 14 - (0 + 4) by norm_num)] at hc
    exact hc.trans (by decide)
  · have hc := gap_separator_core "A" "B" 0 4 4 6 50 100 (by decide) (by decide)
      (by decide) (by decide) (by norm_num) (by norm_num) (by norm_num)
    rw [if_neg (show ¬ (15:ℚ) < 4 - (0 + 4) by norm_num),
      if_neg (show ¬ (2:ℚ) < 4 - (0 + 4) by norm_num)] at hc
    exact hc.trans (by decide)

/-- Witness for C5 at a concrete gap of 5 units. -/
theorem gap_separator_thresholds_witness :
    extractStructuredText
        [PdfItem.mk "A" (some (0, 50)) (some 3), PdfItem.mk "B" (some (8, 50)) (some 0)] 100
      = String.mk ("A".data
          ++ (if 15 < (8:ℚ) - (0 + 3) then [' ', '|', ' ']
              else if 2 < (8:ℚ) - (0 + 3) then [' '] else [])
          ++ "B".data) :=
  gap_separator_thresholds.1 "A" "B" 0 8 3 0 50 100 (by decide) (by decide)
    (by decide) (by decide) (by norm_num) (by norm_num) (by norm_num)

/-! ## Text Structurer permutation behavior (claim C2) -/


/-- Accumulator form of the one-band clustering lemma. -/
theorem buildRows_aux (h y0 : ℚ) :
    ∀ (l : List PdfItem) (acc : List RowItem), (∀ it ∈ l, itemY h it = y0) →
      List.foldl
        (fun rows it =>
          if it.str.data = [] then rows
          else insertIntoRows rows (itemY h it) (toRowItem it))
        [PdfRow.mk y0 acc] l
      = [PdfRow.mk y0 (acc ++ keptRowItems l)] := by
  intro l
  induction l with
  | nil => intro acc _; simp [keptRowItems]
  | cons it l ih =>
    intro acc hy
    have hyit : itemY h it = y0 := hy it (List.mem_cons_self it l)
    have hyl : ∀ j ∈ l, itemY h j = y0 := fun j hj => hy j (List.mem_cons_of_mem it hj)
    by_cases hstr : it.str.data = []
    · simp only [List.foldl_cons, if_pos hstr]
      rw [ih acc hyl]
      simp [keptRowItems, List.filter_cons, hstr]
    · simp only [List.foldl_cons, if_neg hstr]
      rw [show insertIntoRows [PdfRow.mk y0 acc] (itemY h it) (toRowItem it)
          = [PdfRow.mk y0 (acc ++ [toRowItem it])] from by
        unfold insertIntoRows
        rw [if_pos (by rw [hyit, sub_self, abs_zero]; norm_num)]]
      rw [ih (acc ++ [toRowItem it]) hyl]
      simp [keptRowItems, List.filter_cons, hstr]

/-- When every fragment shares one y coordinate, clustering yields the
single row of all kept fragments in input order. -/
theorem buildRows_single_band (h y0 : ℚ) (l : List PdfItem)
    (hy : ∀ it ∈ l, itemY h it = y0) :
    buildRows h l
      = if keptRowItems l = [] then [] else [PdfRow.mk y0 (keptRowItems l)] := by
  induction l with
  | nil => simp [buildRows, keptRowItems]
  | cons it l ih =>
    have hyit : itemY h it = y0 := hy it (List.mem_cons_self it l)
    have hyl : ∀ j ∈ l, itemY h j = y0 := fun j hj => hy j (List.mem_cons_of_mem it hj)
    by_cases hstr : it.str.data = []
    · unfold buildRows
      simp only [List.foldl_cons, if_pos hstr]
      rw [show List.foldl _ ([] : List PdfRow) l = buildRows h l from rfl, ih hyl]
      simp [keptRowItems, List.filter_cons, hstr]
    · unfold buildRows
      simp only [List.foldl_cons, if_neg hstr]
      rw [show insertIntoRows [] (itemY h it) (toRowItem it)
          = [PdfRow.mk y0 [toRowItem it]] from by rw [hyit]; rfl]
      rw [buildRows_aux h y0 l [toRowItem it] hyl]
      have hkept : keptRowItems (it :: l) = toRowItem it :: keptRowItems l := by
        simp [keptRowItems, List.filter_cons, hstr]
      rw [hkept]
      rw [if_neg (List.cons_ne_nil _ _)]
      rfl

/-- The in-row sort is a function of the multiset when x coordinates
are pairwise distinct. -/
theorem sortRowItems_eq_of_perm {m1 m2 : List RowItem} (hp : List.Perm m1 m2)
    (hd : m1.Pairwise fun a b => a.x ≠ b.x) :
    sortRowItems m1 = sortRowItems m2 := by
  haveI : IsAntisymm RowItem (fun a b => a.x < b.x) :=
    ⟨fun a b h1 h2 => absurd h1 (not_lt.mpr (le_of_lt h2))⟩
  have p1 : List.Perm (sortRowItems m1) m1 := List.perm_insertionSort rowItemLe m1
  have p2 : List.Perm (sortRowItems m2) m2 := List.perm_insertionSort rowItemLe m2
  have s1 : List.Sorted rowItemLe (sortRowItems m1) := List.sorted_insertionSort rowItemLe m1
  have s2 : List.Sorted rowItemLe (sortRowItems m2) := List.sorted_insertionSort rowItemLe m2
  have hd2 : m2.Pairwise fun a b => a.x ≠ b.x :=
    (hp.pairwise_iff fun hab => hab.symm).mp hd
  have d1 : (sortRowItems m1).Pairwise fun a b => a.x ≠ b.x :=
    (p1.pairwise_iff fun hab => hab.symm).mpr hd
  have d2 : (sortRowItems m2).Pairwise fun a b => a.x ≠ b.x :=
    (p2.pairwise_iff fun hab => hab.symm).mpr hd2
  have lt1 : (sortRowItems m1).Pairwise fun a b => a.x < b.x :=
    (s1.and d1).imp fun hab => lt_of_le_of_ne hab.1 hab.2
  have lt2 : (sortRowItems m2).Pairwise fun a b => a.x < b.x :=
    (s2.and d2).imp fun hab => lt_of_le_of_ne hab.1 hab.2
  exact List.eq_of_perm_of_sorted (p1.trans (hp.trans p2.symm)) lt1 lt2

/-- Kept row entries of permuted inputs are permuted. -/
theorem keptRowItems_perm {l1 l2 : List PdfItem} (hp : List.Perm l1 l2) :
    List.Perm (keptRowItems l1) (keptRowItems l2) :=
  (hp.filter _).map toRowItem

/-- Distinct x coordinates survive the empty-string filter. -/
theorem keptRowItems_pairwise {l : List PdfItem}
    (hx : l.Pairwise fun a b => itemX a ≠ itemX b) :
    (keptRowItems l).Pairwise fun a b : RowItem => a.x ≠ b.x := by
  unfold keptRowItems
  exact List.pairwise_map.mpr (hx.filter _)

/-- Claim C2 as amended: permutation invariance restricted to fragment
sets lying in a single tolerance band (all fragments share one computed
y coordinate) with pairwise distinct x coordinates; for such sets the
structurer output is identical for every input order. -/
theorem structurer_perm_same_row (h y0 : ℚ) (l1 l2 : List PdfItem)
    (hperm : List.Perm l1 l2)
    (hy : ∀ it ∈ l1, itemY h it = y0)
    (hx : l1.Pairwise fun a b => itemX a ≠ itemX b) :
    extractStructuredText l1 h = extractStructuredText l2 h := by
  have hy2 : ∀ it ∈ l2, itemY h it = y0 := fun it hit => hy it (hperm.mem_iff.mpr hit)
  have kp : List.Perm (keptRowItems l1) (keptRowItems l2) := keptRowItems_perm hperm
  unfold extractStructuredText extractStructuredTextL
  rw [buildRows_single_band h y0 l1 hy, buildRows_single_band h y0 l2 hy2]
  by_cases hK : keptRowItems l1 = []
  · have hK2 : keptRowItems l2 = [] := by
      rw [hK] at kp
      exact (List.perm_nil.mp kp.symm)
    rw [hK, hK2]
  · have hK2 : keptRowItems l2 ≠ [] := by
      intro h0
      rw [h0] at kp
      exact hK (List.perm_nil.mp kp)
    rw [if_neg hK, if_neg hK2]
    have hs : sortRowItems (keptRowItems l1) = sortRowItems (keptRowItems l2) :=
      sortRowItems_eq_of_perm kp (keptRowItems_pairwise hx)
    simp only [List.insertionSort, List.orderedInsert, List.map_cons, List.map_nil]
    rw [hs]

/-- Claim C2 (falsified): the Text Structurer is not invariant under
input permutation.  Fragments at y = 0, 7 and 14 chain: starting from
the y = 0 fragment the third starts a new row ("a b" then "c"), while
starting from the y = 7 fragment all three land in one row ("a b c"),
because a fragment joins the first row whose founding y is within the
tolerance. -/
theorem structurer_perm_cex :
    List.Perm
      [PdfItem.mk "a" (some (0, 100)) (some 0), PdfItem.mk "b" (some (10, 93)) (some 0),
        PdfItem.mk "c" (some (20, 86)) (some 0)]
      [PdfItem.mk "b" (some (10, 93)) (some 0), PdfItem.mk "a" (some (0, 100)) (some 0),
        PdfItem.mk "c" (some (20, 86)) (some 0)]
    ∧ extractStructuredText
        [PdfItem.mk "a" (some (0, 100)) (some 0), PdfItem.mk "b" (some (10, 93)) (some 0),
          PdfItem.mk "c" (some (20, 86)) (some 0)] 100
      = "a b\nc"
    ∧ extractStructuredText
        [PdfItem.mk "b" (some (10, 93)) (some 0), PdfItem.mk "a" (some (0, 100)) (some 0),
          PdfItem.mk "c" (some (20, 86)) (some 0)] 100
      = "a b c"
    ∧ extractStructuredText
        [PdfItem.mk "a" (some (0, 100)) (some 0), PdfItem.mk "b" (some (10, 93)) (some 0),
          PdfItem.mk "c" (some (20, 86)) (some 0)] 100
      ≠ extractStructuredText
        [PdfItem.mk "b" (some (10, 93)) (some 0), PdfItem.mk "a" (some (0, 100)) (some 0),
          PdfItem.mk "c" (some (20, 86)) (some 0)] 100 := by
  have hperm := List.Perm.swap (PdfItem.mk "b" (some (10, 93)) (some 0))
    (PdfItem.mk "a" (some (0, 100)) (some 0)) [PdfItem.mk "c" (some (20, 86)) (some 0)]
  refine ⟨hperm, ?_, ?_, ?_⟩
  · norm_num [extractStructuredText, extractStructuredTextL, buildRows, insertIntoRows,
      itemY, itemX, toRowItem, List.foldl, sortRowItems, List.insertionSort,
      List.orderedInsert, pdfRowLe, rowItemLe, lineGo, buildLine, jsTrimL, collapseWSL,
      joinSepL, jsIsSpace, List.dropWhile, List.filter]
    decide
  · norm_num [extractStructuredText, extractStructuredTextL, buildRows, insertIntoRows,
      itemY, itemX, toRowItem, List.foldl, sortRowItems, List.insertionSort,
      List.orderedInsert, pdfRowLe, rowItemLe, lineGo, buildLine, jsTrimL, collapseWSL,
      joinSepL, jsIsSpace, List.dropWhile, List.filter]
    decide
  · intro hcon
    have h1 : extractStructuredText
        [PdfItem.mk "a" (some (0, 100)) (some 0), PdfItem.mk "b" (some (10, 93)) (some 0),
          PdfItem.mk "c" (some (20, 86)) (some 0)] 100
      = "a b\nc" := by
      norm_num [extractStructuredText, extractStructuredTextL, buildRows, insertIntoRows,
        itemY, itemX, toRowItem, List.foldl, sortRowItems, List.insertionSort,
        List.orderedInsert, pdfRowLe, rowItemLe, lineGo, buildLine, jsTrimL, collapseWSL,
        joinSepL, jsIsSpace, List.dropWhile, List.filter]
      decide
    have h2 : extractStructuredText
        [PdfItem.mk "b" (some (10, 93)) (some 0), PdfItem.mk "a" (some (0, 100)) (some 0),
          PdfItem.mk "c" (some (20, 86)) (some 0)] 100
      = "a b c" := by
      norm_num [extractStructuredText, extractStructuredTextL, buildRows, insertIntoRows,
        itemY, itemX, toRowItem, List.foldl, sortRowItems, List.insertionSort,
        List.orderedInsert, pdfRowLe, rowItemLe, lineGo, buildLine, jsTrimL, collapseWSL,
        joinSepL, jsIsSpace, List.dropWhile, List.filter]
      decide
    rw [h1, h2] at hcon
    exact absurd hcon (by decide)

/-- Witness for the amended C2 at a concrete same-band pair. -/
theorem structurer_perm_same_row_witness :
    extractStructuredText
        [PdfItem.mk "a" (some (0, 50)) (some 0), PdfItem.mk "b" (some (10, 50)) (some 0)] 100
      = extractStructuredText
        [PdfItem.mk "b" (some (10, 50)) (some 0), PdfItem.mk "a" (some (0, 50)) (some 0)] 100 :=
  structurer_perm_same_row 100 50 _ _
    (List.Perm.swap (PdfItem.mk "b" (some (10, 50)) (some 0))
      (PdfItem.mk "a" (some (0, 50)) (some 0)) [])
    (by
      intro it hit
      rcases List.mem_cons.mp hit with rfl | hit
      · norm_num [itemY]
      · rcases List.mem_singleton.mp hit with rfl
        norm_num [itemY])
    (by
      refine List.pairwise_cons.mpr ⟨?_, List.pairwise_singleton _ _⟩
      intro b hb
      rcases List.mem_singleton.mp hb with rfl
      norm_num [itemX])

end PMA
